import Mathlib

/-!
Verification development for the external-dns-traffic-manager webhook.

The Go sources are shallowly embedded:
  * `pkg/annotations` (parser.go, validate, constants) — configuration parse
    and validation over an association-list model of Go string maps;
  * `pkg/state` (manager.go, types) — the TTL-bounded State Mirror, at two
    levels: a value-level model for functional claims, and an explicit-heap
    model used to reason about aliasing of values returned by the mirror;
  * `pkg/provider` (provider.go) — the reconciliation engine (createEndpoint,
    updateEndpoint, deleteEndpoint, ApplyChanges), parameterised over an
    abstract remote Traffic Manager client; each run yields an event trace of
    the remote calls and mirror writes it performed.
Go `int64` becomes `Int`, `time.Time`/`time.Duration` become `Int`
(nanoseconds; the zero value of `time.Time` is `0`), a Go `map[string]T`
becomes `List (String × T)` with first-match lookup, and fallible Go
functions return `Except String`.
-/

deriving instance DecidableEq for Except

namespace TMSpec

/-! ## String helpers (models of strings.ToLower, strconv.ParseInt/ParseBool) -/

/-- ASCII model of Go strings.ToLower: lowers A–Z. (The full Unicode case
mapping never sends any other code point to a character of "true", which is
the only comparison the source performs on the lowered string.) -/
def asciiToLower (s : String) : String :=
  String.mk (s.data.map fun c =>
    if 'A' ≤ c ∧ c ≤ 'Z' then Char.ofNat (c.toNat + 32) else c)

/-- Digits of a decimal literal, or none on empty / non-digit input. -/
def digitsToNat : List Char → Option Nat
  | [] => none
  | [c] => if '0' ≤ c ∧ c ≤ '9' then some (c.toNat - '0'.toNat) else none
  | c :: rest =>
    if '0' ≤ c ∧ c ≤ '9' then
      match digitsToNat rest with
      | some n => some ((c.toNat - '0'.toNat) * 10 ^ rest.length + n)
      | none => none
    else none

/-- Model of Go strconv.ParseInt(s, 10, 64): optional sign, decimal digits,
int64 range check. Error strings are the strconv reason suffixes. -/
def parseInt64 (s : String) : Except String Int :=
  match s.data with
  | [] => .error "invalid syntax"
  | c :: rest =>
    let signed : Bool × List Char :=
      if c = '-' then (true, rest)
      else if c = '+' then (false, rest)
      else (false, c :: rest)
    match digitsToNat signed.2 with
    | none => .error "invalid syntax"
    | some n =>
      let v : Int := if signed.1 then -(n : Int) else (n : Int)
      if v < -(2 ^ 63) ∨ (2 ^ 63 - 1) < v then .error "value out of range"
      else .ok v

/-- Model of Go strconv.ParseBool. -/
def parseBool (s : String) : Except String Bool :=
  if s = "1" ∨ s = "t" ∨ s = "T" ∨ s = "true" ∨ s = "TRUE" ∨ s = "True" then .ok true
  else if s = "0" ∨ s = "f" ∨ s = "F" ∨ s = "false" ∨ s = "FALSE" ∨ s = "False" then .ok false
  else .error "invalid syntax"

/-! ## Annotation keys and defaults (pkg/annotations constants file) -/

/-- The common annotation key root is "webhook/traffic-manager-"; each key
below is written out in full. -/
def AnnotationEnabled : String := "webhook/traffic-manager-enabled"

def AnnotationProfileName : String := "webhook/traffic-manager-profile-name"

def AnnotationResourceGroup : String := "webhook/traffic-manager-resource-group"

def AnnotationHostname : String := "webhook/traffic-manager-hostname"

def AnnotationRoutingMethod : String := "webhook/traffic-manager-routing-method"

def AnnotationWeight : String := "webhook/traffic-manager-weight"

def AnnotationPriority : String := "webhook/traffic-manager-priority"

def AnnotationEndpointName : String := "webhook/traffic-manager-endpoint-name"

def AnnotationEndpointLocation : String := "webhook/traffic-manager-endpoint-location"

def AnnotationEndpointStatus : String := "webhook/traffic-manager-endpoint-status"

def AnnotationDNSTTL : String := "webhook/traffic-manager-dns-ttl"

def AnnotationMonitorProtocol : String := "webhook/traffic-manager-monitor-protocol"

def AnnotationMonitorPort : String := "webhook/traffic-manager-monitor-port"

def AnnotationMonitorPath : String := "webhook/traffic-manager-monitor-path"

def AnnotationHealthChecksEnabled : String := "webhook/traffic-manager-health-checks-enabled"

/-! ## TrafficManagerConfig (pkg/annotations/parser.go) -/

/-- annotations.TrafficManagerConfig. -/
structure TMConfig where
  Enabled : Bool
  ProfileName : String
  ResourceGroup : String
  Hostname : String
  RoutingMethod : String
  Weight : Int
  Priority : Int
  EndpointName : String
  EndpointLocation : String
  EndpointStatus : String
  EndpointType : String
  DNSTTL : Int
  MonitorProtocol : String
  MonitorPort : Int
  MonitorPath : String
  HealthChecksEnabled : Bool
deriving DecidableEq, Repr

/-- The struct literal at the top of ParseConfig: stated defaults plus Go
zero values for the remaining fields. -/
def defaultTMConfig : TMConfig where
  Enabled := false
  ProfileName := ""
  ResourceGroup := ""
  Hostname := ""
  RoutingMethod := "Weighted"
  Weight := 100
  Priority := 1
  EndpointName := ""
  EndpointLocation := ""
  EndpointStatus := "Enabled"
  EndpointType := "ExternalEndpoints"
  DNSTTL := 30
  MonitorProtocol := "HTTPS"
  MonitorPort := 443
  MonitorPath := "/"
  HealthChecksEnabled := false

/-- Go map[string]string, as an association list with first-match lookup. -/
abbrev Labels : Type := List (String × String)

/-- Map read (value and presence): first matching key wins. -/
def lookupLabel : Labels → String → Option String
  | [], _ => none
  | (k, v) :: rest, key => if k = key then some v else lookupLabel rest key

/-- One `if v, ok := labels[key]; ok && v != "" \x7b set ... \x7d` step of
ParseConfig, for a string-typed field. -/
def setStrField (labels : Labels) (key : String) (set : TMConfig → String → TMConfig)
    (c : TMConfig) : TMConfig :=
  match lookupLabel labels key with
  | some v => if v = "" then c else set c v
  | none => c

/-- One numeric-annotation step of ParseConfig: present and non-empty values
must parse as int64, otherwise a hard error naming the field. -/
def setIntField (labels : Labels) (key fieldName : String) (set : TMConfig → Int → TMConfig)
    (c : TMConfig) : Except String TMConfig :=
  match lookupLabel labels key with
  | some v =>
    if v = "" then .ok c
    else
      match parseInt64 v with
      | .ok n => .ok (set c n)
      | .error e =>
        .error ("invalid " ++ fieldName ++ " value \"" ++ v ++
          "\": strconv.ParseInt: parsing \"" ++ v ++ "\": " ++ e)
  | none => .ok c

/-- The health-checks-enabled step of ParseConfig (strconv.ParseBool). -/
def setBoolField (labels : Labels) (key fieldName : String) (set : TMConfig → Bool → TMConfig)
    (c : TMConfig) : Except String TMConfig :=
  match lookupLabel labels key with
  | some v =>
    if v = "" then .ok c
    else
      match parseBool v with
      | .ok b => .ok (set c b)
      | .error e =>
        .error ("invalid " ++ fieldName ++ " value \"" ++ v ++
          "\": strconv.ParseBool: parsing \"" ++ v ++ "\": " ++ e)
  | none => .ok c

/-- The field assignment of each ParseConfig override step, one named
function per annotation-backed field. -/
def setProfileNameF (c : TMConfig) (v : String) : TMConfig := { c with ProfileName := v }

def setHostnameF (c : TMConfig) (v : String) : TMConfig := { c with Hostname := v }

def setRoutingMethodF (c : TMConfig) (v : String) : TMConfig := { c with RoutingMethod := v }

def setWeightF (c : TMConfig) (n : Int) : TMConfig := { c with Weight := n }

def setPriorityF (c : TMConfig) (n : Int) : TMConfig := { c with Priority := n }

def setEndpointNameF (c : TMConfig) (v : String) : TMConfig := { c with EndpointName := v }

def setEndpointLocationF (c : TMConfig) (v : String) : TMConfig := { c with EndpointLocation := v }

def setEndpointStatusF (c : TMConfig) (v : String) : TMConfig := { c with EndpointStatus := v }

def setDNSTTLF (c : TMConfig) (n : Int) : TMConfig := { c with DNSTTL := n }

def setMonitorProtocolF (c : TMConfig) (v : String) : TMConfig := { c with MonitorProtocol := v }

def setMonitorPortF (c : TMConfig) (n : Int) : TMConfig := { c with MonitorPort := n }

def setMonitorPathF (c : TMConfig) (v : String) : TMConfig := { c with MonitorPath := v }

def setHealthChecksF (c : TMConfig) (b : Bool) : TMConfig := { c with HealthChecksEnabled := b }

/-- annotations.ParseConfig: defaults, the enabled short-circuit, then the
field-by-field override passes in source order. -/
def ParseConfig (labels : Labels) : Except String TMConfig :=
  let c0 : TMConfig :=
    match lookupLabel labels AnnotationEnabled with
    | some v => { defaultTMConfig with Enabled := asciiToLower v == "true" }
    | none => defaultTMConfig
  if c0.Enabled = false then .ok c0
  else
    let c1 := { c0 with ResourceGroup := (lookupLabel labels AnnotationResourceGroup).getD "" }
    if c1.ResourceGroup = "" then
      .error ("annotation " ++ AnnotationResourceGroup ++ " is required when Traffic Manager is enabled")
    else
      let c2 := setStrField labels AnnotationProfileName setProfileNameF c1
      let c3 := setStrField labels AnnotationHostname setHostnameF c2
      let c4 := setStrField labels AnnotationRoutingMethod setRoutingMethodF c3
      do
        let c5 ← setIntField labels AnnotationWeight "weight" setWeightF c4
        let c6 ← setIntField labels AnnotationPriority "priority" setPriorityF c5
        let c7 := setStrField labels AnnotationEndpointName setEndpointNameF c6
        let c8 := setStrField labels AnnotationEndpointLocation setEndpointLocationF c7
        let c9 := setStrField labels AnnotationEndpointStatus setEndpointStatusF c8
        let c10 ← setIntField labels AnnotationDNSTTL "DNS TTL" setDNSTTLF c9
        let c11 := setStrField labels AnnotationMonitorProtocol setMonitorProtocolF c10
        let c12 ← setIntField labels AnnotationMonitorPort "monitor port" setMonitorPortF c11
        let c13 := setStrField labels AnnotationMonitorPath setMonitorPathF c12
        let c14 ← setBoolField labels AnnotationHealthChecksEnabled "health checks enabled"
          setHealthChecksF c13
        return c14

/-- The `contains` helper of the annotations validate file. -/
def containsStr : List String → String → Bool
  | [], _ => false
  | s :: rest, item => if s = item then true else containsStr rest item

/-- annotations.ValidateConfig; `none` models a nil error. -/
def ValidateConfig (config : TMConfig) : Option String :=
  if config.Enabled = false then none
  else if config.ResourceGroup = "" then some "resource group is required"
  else if config.Weight < 1 ∨ 1000 < config.Weight then
    some ("weight must be between 1 and 1000, got " ++ toString config.Weight)
  else if config.Priority < 1 ∨ 1000 < config.Priority then
    some ("priority must be between 1 and 1000, got " ++ toString config.Priority)
  else if containsStr ["Weighted", "Priority", "Performance", "Geographic"] config.RoutingMethod = false then
    some ("invalid routing method \"" ++ config.RoutingMethod ++
      "\", must be one of: [Weighted Priority Performance Geographic]")
  else if containsStr ["HTTP", "HTTPS", "TCP"] config.MonitorProtocol = false then
    some ("invalid monitor protocol \"" ++ config.MonitorProtocol ++
      "\", must be one of: [HTTP HTTPS TCP]")
  else if containsStr ["Enabled", "Disabled"] config.EndpointStatus = false then
    some ("invalid endpoint status \"" ++ config.EndpointStatus ++
      "\", must be one of: [Enabled Disabled]")
  else if config.DNSTTL < 30 then
    some ("DNS TTL must be at least 30 seconds, got " ++ toString config.DNSTTL)
  else if config.MonitorPort < 1 ∨ 65535 < config.MonitorPort then
    some ("monitor port must be between 1 and 65535, got " ++ toString config.MonitorPort)
  else if config.EndpointType = "ExternalEndpoints" ∧ config.EndpointLocation = "" then
    some "endpoint location is required for ExternalEndpoints"
  else none

/-! ## State Mirror, value level (pkg/state/manager.go and the types file)

Times are `Int` nanoseconds; the zero value of `time.Time` is `0`; a
`time.Duration` TTL is an `Int`.  Maps are association lists; `insertAssoc`
is Go map assignment and `removeAssoc` is Go `delete`. -/

/-- Generic first-match association-list lookup (a Go map read). -/
def lookupA {α : Type} : List (String × α) → String → Option α
  | [], _ => none
  | (k, v) :: rest, key => if k = key then some v else lookupA rest key

/-- Go map assignment m[k] = v: replace the existing entry or append. -/
def insertAssoc {α : Type} : List (String × α) → String → α → List (String × α)
  | [], k, v => [(k, v)]
  | (k2, v2) :: rest, k, v =>
    if k2 = k then (k, v) :: rest else (k2, v2) :: insertAssoc rest k v

/-- Go delete(m, k). -/
def removeAssoc {α : Type} : List (String × α) → String → List (String × α)
  | [], _ => []
  | (k2, v2) :: rest, k =>
    if k2 = k then removeAssoc rest k else (k2, v2) :: removeAssoc rest k

/-- state.EndpointState. -/
structure EndpointState where
  EndpointName : String
  EndpointType : String
  Target : String
  Weight : Int
  Priority : Int
  Status : String
  Location : String
  CreatedAt : Int
  UpdatedAt : Int
deriving DecidableEq, Repr

/-- state.ProfileState. -/
structure ProfileState where
  ProfileName : String
  ResourceGroup : String
  Hostname : String
  FQDN : String
  RoutingMethod : String
  DNSTTL : Int
  Endpoints : List (String × EndpointState)
  Tags : List (String × String)
  CreatedAt : Int
  UpdatedAt : Int
  CachedAt : Int
deriving DecidableEq, Repr

/-- EndpointState.Clone: field-by-field copy. -/
def EndpointState.clone (es : EndpointState) : EndpointState where
  EndpointName := es.EndpointName
  EndpointType := es.EndpointType
  Target := es.Target
  Weight := es.Weight
  Priority := es.Priority
  Status := es.Status
  Location := es.Location
  CreatedAt := es.CreatedAt
  UpdatedAt := es.UpdatedAt

/-- ProfileState.Clone: scalar copy plus rebuilt Endpoints and Tags maps. -/
def ProfileState.clone (ps : ProfileState) : ProfileState where
  ProfileName := ps.ProfileName
  ResourceGroup := ps.ResourceGroup
  Hostname := ps.Hostname
  FQDN := ps.FQDN
  RoutingMethod := ps.RoutingMethod
  DNSTTL := ps.DNSTTL
  Endpoints := ps.Endpoints.map fun kv => (kv.1, kv.2.clone)
  Tags := ps.Tags.map fun kv => (kv.1, kv.2)
  CreatedAt := ps.CreatedAt
  UpdatedAt := ps.UpdatedAt
  CachedAt := ps.CachedAt

/-- ProfileState.IsExpired: a zero CachedAt is always expired, otherwise
expired when time.Since(CachedAt) = now - CachedAt exceeds the TTL. -/
def ProfileState.IsExpired (ps : ProfileState) (ttl now : Int) : Bool :=
  if ps.CachedAt = 0 then true else decide (ttl < now - ps.CachedAt)

/-- state.Manager: hostname-keyed profile map plus the configured cache TTL. -/
structure Manager where
  profiles : List (String × ProfileState)
  cacheTTL : Int
deriving DecidableEq, Repr

/-- state.NewManager. -/
def Manager.New (cacheTTL : Int) : Manager := ⟨[], cacheTTL⟩

/-- Manager.GetProfile: absent on missing or expired entries, otherwise a
clone of the stored entry; the profile map itself is returned untouched
(the method takes only a read lock and performs no write). -/
def Manager.GetProfile (m : Manager) (now : Int) (hostname : String) :
    Option ProfileState × Manager :=
  match lookupA m.profiles hostname with
  | none => (none, m)
  | some profile =>
    if profile.IsExpired m.cacheTTL now then (none, m)
    else (some profile.clone, m)

/-- Manager.SetProfile: stamps CachedAt with the current time (on the
caller's record, per the source) and stores a clone. -/
def Manager.SetProfile (m : Manager) (now : Int) (hostname : String)
    (profile : ProfileState) : Manager :=
  let stamped := { profile with CachedAt := now }
  { m with profiles := insertAssoc m.profiles hostname stamped.clone }

/-- Manager.DeleteProfile. -/
def Manager.DeleteProfile (m : Manager) (hostname : String) : Manager :=
  { m with profiles := removeAssoc m.profiles hostname }

/-- Manager.GetEndpoint: goes through GetProfile (hence TTL-checked) and
clones the found endpoint. -/
def Manager.GetEndpoint (m : Manager) (now : Int) (hostname endpointName : String) :
    Option EndpointState × Manager :=
  match (m.GetProfile now hostname).1 with
  | none => (none, m)
  | some profile =>
    match lookupA profile.Endpoints endpointName with
    | none => (none, m)
    | some endpoint => (some endpoint.clone, m)

/-- Manager.SetEndpoint: a warn-and-return no-op when no profile entry is
stored for the hostname; otherwise stores a clone of the endpoint in the
stored profile and refreshes UpdatedAt/CachedAt. -/
def Manager.SetEndpoint (m : Manager) (now : Int) (hostname endpointName : String)
    (endpoint : EndpointState) : Manager :=
  match lookupA m.profiles hostname with
  | none => m
  | some profile =>
    let p := { profile with
      Endpoints := insertAssoc profile.Endpoints endpointName endpoint.clone,
      UpdatedAt := now, CachedAt := now }
    { m with profiles := insertAssoc m.profiles hostname p }

/-- Manager.DeleteEndpoint: no-op when the profile entry is missing. -/
def Manager.DeleteEndpoint (m : Manager) (now : Int) (hostname endpointName : String) :
    Manager :=
  match lookupA m.profiles hostname with
  | none => m
  | some profile =>
    let p := { profile with
      Endpoints := removeAssoc profile.Endpoints endpointName,
      UpdatedAt := now, CachedAt := now }
    { m with profiles := insertAssoc m.profiles hostname p }

/-! ## State Mirror, heap level

An explicit-store model of the same manager.go code, used to state the
aliasing consequences of Clone: Go values `*ProfileState`,
`map[string]*EndpointState`, `map[string]string` and `*EndpointState` are
addresses into four stores, so "distinct object" and "mutating the value
returned by Get" become provable statements. -/

/-- A ProfileState object: scalar fields inline, the Endpoints and Tags
maps as references into the heap. -/
structure HProfile where
  ProfileName : String
  ResourceGroup : String
  Hostname : String
  FQDN : String
  RoutingMethod : String
  DNSTTL : Int
  CreatedAt : Int
  UpdatedAt : Int
  CachedAt : Int
  Endpoints : Nat
  Tags : Nat
deriving DecidableEq, Repr

/-- The four stores; addresses are list indices. -/
structure Heap where
  profs : List HProfile
  epMaps : List (List (String × Nat))
  tagMaps : List (List (String × String))
  eps : List EndpointState
deriving DecidableEq, Repr

/-- Dereference a profile object. -/
def Heap.readProf (H : Heap) (a : Nat) : Option HProfile := H.profs[a]?

/-- Dereference an endpoints-map object. -/
def Heap.readEpMap (H : Heap) (a : Nat) : Option (List (String × Nat)) := H.epMaps[a]?

/-- Dereference a tags-map object. -/
def Heap.readTagMap (H : Heap) (a : Nat) : Option (List (String × String)) := H.tagMaps[a]?

/-- Dereference an endpoint object. -/
def Heap.readEp (H : Heap) (a : Nat) : Option EndpointState := H.eps[a]?

/-- Resolve every endpoint reference of an endpoints map. -/
def Heap.readEndpoints (H : Heap) : List (String × Nat) → Option (List (String × EndpointState))
  | [] => some []
  | (k, a) :: rest =>
    match H.readEp a with
    | none => none
    | some es =>
      match Heap.readEndpoints H rest with
      | none => none
      | some l => some ((k, es) :: l)

/-- The deep value reachable from a profile address. -/
def Heap.deepRead (H : Heap) (a : Nat) : Option ProfileState :=
  match H.readProf a with
  | none => none
  | some po =>
    match H.readEpMap po.Endpoints with
    | none => none
    | some em =>
      match H.readTagMap po.Tags with
      | none => none
      | some tm =>
        match H.readEndpoints em with
        | none => none
        | some l =>
          some ⟨po.ProfileName, po.ResourceGroup, po.Hostname, po.FQDN,
            po.RoutingMethod, po.DNSTTL, l, tm, po.CreatedAt, po.UpdatedAt, po.CachedAt⟩

/-- Allocate fresh endpoint objects for a value's endpoints (the loop of
ProfileState.Clone over Endpoints, each entry cloned). -/
def Heap.allocEps : Heap → List (String × EndpointState) → Heap × List (String × Nat)
  | H, [] => (H, [])
  | H, (k, es) :: rest =>
    let a := H.eps.length
    let H1 : Heap := { H with eps := H.eps ++ [es.clone] }
    let r := Heap.allocEps H1 rest
    (r.1, (k, a) :: r.2)

/-- Materialise a ProfileState value as a fresh object graph: fresh
endpoint objects, a fresh endpoints map, a fresh tags map (entries copied),
and a fresh profile object — exactly what ProfileState.Clone builds. -/
def Heap.allocProfileVal (H : Heap) (v : ProfileState) : Heap × Nat :=
  (⟨(H.allocEps v.Endpoints).1.profs ++
      [⟨v.ProfileName, v.ResourceGroup, v.Hostname, v.FQDN, v.RoutingMethod, v.DNSTTL,
        v.CreatedAt, v.UpdatedAt, v.CachedAt,
        (H.allocEps v.Endpoints).1.epMaps.length,
        (H.allocEps v.Endpoints).1.tagMaps.length⟩],
    (H.allocEps v.Endpoints).1.epMaps ++ [(H.allocEps v.Endpoints).2],
    (H.allocEps v.Endpoints).1.tagMaps ++ [v.Tags.map fun kv => (kv.1, kv.2)],
    (H.allocEps v.Endpoints).1.eps⟩,
   (H.allocEps v.Endpoints).1.profs.length)

/-- The manager at heap level: hostnames map to profile addresses. -/
structure HManager where
  profiles : List (String × Nat)
  cacheTTL : Int
deriving DecidableEq, Repr

/-- In-place update of a profile object (a caller writing through the
pointer). -/
def Heap.setProfObj (H : Heap) (a : Nat) (po : HProfile) : Heap :=
  { H with profs := H.profs.set a po }

/-- In-place update of an endpoints-map object. -/
def Heap.setEpMap (H : Heap) (a : Nat) (m : List (String × Nat)) : Heap :=
  { H with epMaps := H.epMaps.set a m }

/-- In-place update of a tags-map object. -/
def Heap.setTagMap (H : Heap) (a : Nat) (m : List (String × String)) : Heap :=
  { H with tagMaps := H.tagMaps.set a m }

/-- In-place update of an endpoint object. -/
def Heap.setEp (H : Heap) (a : Nat) (es : EndpointState) : Heap :=
  { H with eps := H.eps.set a es }

/-- Heap-level Manager.SetProfile: stamp CachedAt on the caller's object
(an in-place write through the caller's pointer, per the source), then
store a clone — a fresh allocation of the whole object graph. -/
def hSetProfile (H : Heap) (m : HManager) (now : Int) (hostname : String) (p : Nat) :
    Heap × HManager :=
  match H.readProf p with
  | none => (H, m)
  | some po =>
    let H1 := H.setProfObj p { po with CachedAt := now }
    match H1.deepRead p with
    | none => (H1, m)
    | some v =>
      let r := H1.allocProfileVal v
      (r.1, { m with profiles := insertAssoc m.profiles hostname r.2 })

/-- Heap-level Manager.GetProfile: lookup, the IsExpired check on the
stored object, then a fresh clone of the stored graph is returned. -/
def hGetProfile (H : Heap) (m : HManager) (now : Int) (hostname : String) :
    Heap × Option Nat :=
  match lookupA m.profiles hostname with
  | none => (H, none)
  | some a =>
    match H.readProf a with
    | none => (H, none)
    | some po =>
      if po.CachedAt = 0 ∨ m.cacheTTL < now - po.CachedAt then (H, none)
      else
        match H.deepRead a with
        | none => (H, none)
        | some v =>
          let r := H.allocProfileVal v
          (r.1, some r.2)

/-- The deep value observed by a heap-level Get. -/
def hGetValue (H : Heap) (m : HManager) (now : Int) (hostname : String) : Option ProfileState :=
  match hGetProfile H m now hostname with
  | (H2, some q) => H2.deepRead q
  | (_, none) => none

/-! ## Naming functions (provider.go helpers and the dnsendpoint name rule) -/

/-- provider sanitizeName: every character outside [A-Za-z0-9] becomes a
hyphen. -/
def sanitizeName (name : String) : String :=
  String.mk (name.data.map fun c =>
    if ('a' ≤ c ∧ c ≤ 'z') ∨ ('A' ≤ c ∧ c ≤ 'Z') ∨ ('0' ≤ c ∧ c ≤ '9') then c else '-')

/-- provider generateProfileName. -/
def generateProfileName (dnsName : String) : String :=
  sanitizeName dnsName ++ "-tm"

/-- provider generateEndpointName: sanitize the first target when targets
are non-empty, else the DNS name. -/
def generateEndpointName (dnsName : String) (targets : List String) : String :=
  match targets with
  | [] => sanitizeName dnsName
  | t :: _ => sanitizeName t

/-- provider generateEndpointNameFromTarget: positional suffix for index
above zero. -/
def generateEndpointNameFromTarget (target : String) (index : Nat) : String :=
  let sanitized := sanitizeName target
  if 0 < index then sanitized ++ "-" ++ toString index else sanitized

/-- dnsendpoint.GenerateName: dots become hyphens, other non [A-Za-z0-9-]
characters are dropped, then the "-tm-cname" suffix. -/
def dnsEndpointGenerateName (hostname : String) : String :=
  String.mk (hostname.data.filterMap fun c =>
    if c = '.' then some '-'
    else if ('a' ≤ c ∧ c ≤ 'z') ∨ ('A' ≤ c ∧ c ≤ 'Z') ∨ ('0' ≤ c ∧ c ≤ '9') ∨ c = '-' then some c
    else none) ++ "-tm-cname"

/-! ## Remote-client request records (pkg/trafficmanager types) -/

/-- trafficmanager.ProfileConfig. -/
structure ProfileConfig where
  ProfileName : String
  ResourceGroup : String
  Location : String
  RoutingMethod : String
  DNSTTL : Int
  MonitorProtocol : String
  MonitorPort : Int
  MonitorPath : String
  HealthChecksEnabled : Bool
  Tags : List (String × String)
deriving DecidableEq, Repr

/-- trafficmanager.DefaultProfileConfig. -/
def DefaultProfileConfig : ProfileConfig where
  ProfileName := ""
  ResourceGroup := ""
  Location := "global"
  RoutingMethod := "Weighted"
  DNSTTL := 30
  MonitorProtocol := "HTTPS"
  MonitorPort := 443
  MonitorPath := "/"
  HealthChecksEnabled := true
  Tags := []

/-- trafficmanager.EndpointConfig. -/
structure TMEndpointConfig where
  EndpointName : String
  EndpointType : String
  Target : String
  Weight : Int
  Priority : Int
  Status : String
  Location : String
deriving DecidableEq, Repr

/-- trafficmanager.DefaultEndpointConfig. -/
def DefaultEndpointConfig : TMEndpointConfig where
  EndpointName := ""
  EndpointType := "ExternalEndpoints"
  Target := ""
  Weight := 100
  Priority := 1
  Status := "Enabled"
  Location := ""

/-- TrafficManagerConfig.ToProfileConfig, including the managed-by tag. -/
def TMConfig.ToProfileConfig (c : TMConfig) : ProfileConfig :=
  let config := DefaultProfileConfig
  let config := if c.ProfileName ≠ "" then { config with ProfileName := c.ProfileName } else config
  let config := { config with
    ResourceGroup := c.ResourceGroup
    RoutingMethod := c.RoutingMethod
    DNSTTL := c.DNSTTL
    MonitorProtocol := c.MonitorProtocol
    MonitorPort := c.MonitorPort
    MonitorPath := c.MonitorPath
    HealthChecksEnabled := c.HealthChecksEnabled }
  { config with Tags := insertAssoc config.Tags "managedBy" "external-dns-traffic-manager-webhook" }

/-- TrafficManagerConfig.ToEndpointConfig. -/
def TMConfig.ToEndpointConfig (c : TMConfig) (target : String) : TMEndpointConfig :=
  let config := DefaultEndpointConfig
  let config := if c.EndpointName ≠ "" then { config with EndpointName := c.EndpointName } else config
  { config with
    EndpointType := c.EndpointType
    Target := target
    Weight := c.Weight
    Priority := c.Priority
    Status := c.EndpointStatus
    Location := c.EndpointLocation }

/-! ## Reconciliation engine (pkg/provider/provider.go)

Each engine operation is parameterised over an abstract remote client
carrying its own state type σ (the remote control plane plus the CRD
collaborator); every client call returns an Except result and a successor
remote state.  A run returns the operation's error result, the final remote
state, the final State Mirror, and the trace of remote calls and mirror
writes it performed, in order. -/

/-- provider.Endpoint (the External DNS webhook endpoint record). -/
structure Endpoint where
  DNSName : String
  Targets : List String
  RecordType : String
  SetIdentifier : String
  RecordTTL : Int
  Labels : List (String × String)
  ProviderSpecific : List (String × String)
deriving DecidableEq, Repr

/-- The annotation map built in createEndpoint: Labels first, then
ProviderSpecific entries added over them (later entries override; with
first-match lookup this is the reversed property list in front). -/
def Endpoint.annotationMap (e : Endpoint) : List (String × String) :=
  e.ProviderSpecific.reverse ++ e.Labels

/-- One remote call or mirror write performed by an engine run. -/
inductive Event where
  | createProfile (resourceGroup profileName : String)
  | getProfile (resourceGroup profileName : String)
  | createEp (resourceGroup profileName endpointName : String)
  | updateProfile (resourceGroup profileName : String)
  | updateEp (resourceGroup profileName endpointName : String)
  | deleteEp (resourceGroup profileName endpointType endpointName : String)
  | getProfileState (resourceGroup profileName : String)
  | deleteProfile (resourceGroup profileName : String)
  | cnameUpsert (name : String)
  | cnameDelete (name : String)
  | mirrorSetProfile (hostname : String)
  | mirrorSetEndpoint (hostname endpointName : String)
  | mirrorDeleteProfile (hostname : String)
  | mirrorDeleteEndpoint (hostname endpointName : String)
deriving DecidableEq, Repr

/-- The abstract remote collaborators: the Traffic Manager client plus the
DNSEndpoint CRD manager, as state-passing functions over a remote state σ. -/
structure Client (σ : Type) where
  CreateProfile : σ → ProfileConfig → Except String ProfileState × σ
  GetProfile : σ → String → String → Except String ProfileState × σ
  CreateEndpoint : σ → String → String → TMEndpointConfig → Except String EndpointState × σ
  UpdateProfile : σ → ProfileConfig → Except String ProfileState × σ
  UpdateEndpoint : σ → String → String → TMEndpointConfig → Except String EndpointState × σ
  DeleteEndpoint : σ → String → String → String → String → Except String Unit × σ
  GetProfileState : σ → String → String → Except String ProfileState × σ
  DeleteProfile : σ → String → String → Except String Unit × σ
  CnameCreateOrUpdate : σ → String → String → String → Int → Except String Unit × σ
  CnameDelete : σ → String → Except String Unit × σ

/-- Result of one engine run. -/
structure RunResult (σ : Type) where
  res : Except String Unit
  rem : σ
  mgr : Manager
  trace : List Event
deriving Repr

/-- provider convertToStateEndpoint: field-by-field copy between the
trafficmanager and state endpoint records (one type here). -/
def convertToStateEndpoint (tmEndpoint : EndpointState) : EndpointState where
  EndpointName := tmEndpoint.EndpointName
  EndpointType := tmEndpoint.EndpointType
  Target := tmEndpoint.Target
  Weight := tmEndpoint.Weight
  Priority := tmEndpoint.Priority
  Status := tmEndpoint.Status
  Location := tmEndpoint.Location
  CreatedAt := tmEndpoint.CreatedAt
  UpdatedAt := tmEndpoint.UpdatedAt

/-- The vanity hostname rule shared by createEndpoint and deleteEndpoint:
the hostname annotation when set, else the endpoint's own DNS name. -/
def resolveVanity (cfg : TMConfig) (e : Endpoint) : String :=
  if cfg.Hostname = "" then e.DNSName else cfg.Hostname

/-- createEndpoint's name generation: profile name from the vanity
hostname, endpoint name from DNS name and targets, each only when unset. -/
def resolveCreateNames (cfg : TMConfig) (e : Endpoint) (vanity : String) : TMConfig :=
  let cfg2 := if cfg.ProfileName = "" then { cfg with ProfileName := generateProfileName vanity } else cfg
  if cfg2.EndpointName = "" then
    { cfg2 with EndpointName := generateEndpointName e.DNSName e.Targets }
  else cfg2

/-- ToProfileConfig plus the hostname tag added by the engine before
profile writes. -/
def profileConfigWithHostnameTag (cfg : TMConfig) (hostname : String) : ProfileConfig :=
  let pc := cfg.ToProfileConfig
  { pc with Tags := insertAssoc pc.Tags "hostname" hostname }

/-- createEndpoint's per-target creation loop (targets with running index):
per-target name disambiguation, remote endpoint create, mirror endpoint
write on success, abort on the first failing create. -/
def Provider.createTargets {σ : Type} (c : Client σ) (s : σ) (mgr : Manager) (now : Int)
    (cfg : TMConfig) (vanity : String) (multi : Bool) :
    List String → Nat → RunResult σ
  | [], _ => ⟨.ok (), s, mgr, []⟩
  | target :: rest, i =>
    let ec0 := cfg.ToEndpointConfig target
    let ec :=
      if multi = true ∧ ec0.EndpointName ≠ "" then
        { ec0 with EndpointName := ec0.EndpointName ++ "-" ++ toString i }
      else if ec0.EndpointName = "" then
        { ec0 with EndpointName := generateEndpointNameFromTarget target i }
      else ec0
    match c.CreateEndpoint s cfg.ResourceGroup cfg.ProfileName ec with
    | (.error err, s1) =>
      ⟨.error ("failed to create endpoint " ++ ec.EndpointName ++ ": " ++ err), s1, mgr,
        [.createEp cfg.ResourceGroup cfg.ProfileName ec.EndpointName]⟩
    | (.ok eps, s1) =>
      let mgr1 := mgr.SetEndpoint now vanity ec.EndpointName (convertToStateEndpoint eps)
      let r := Provider.createTargets c s1 mgr1 now cfg vanity multi rest (i + 1)
      ⟨r.res, r.rem, r.mgr,
        .createEp cfg.ResourceGroup cfg.ProfileName ec.EndpointName ::
          .mirrorSetEndpoint vanity ec.EndpointName :: r.trace⟩

/-- createEndpoint's profile re-fetch, mirror write under the vanity
hostname, and best-effort CNAME publication (its error is ignored). -/
def Provider.createRefresh {σ : Type} (c : Client σ) (s : σ) (mgr : Manager) (now : Int)
    (cfg : TMConfig) (vanity dnsName : String) : RunResult σ :=
  match c.GetProfileState s cfg.ResourceGroup cfg.ProfileName with
  | (.error _, s1) =>
    ⟨.ok (), s1, mgr, [.getProfileState cfg.ResourceGroup cfg.ProfileName]⟩
  | (.ok ps0, s1) =>
    let ps := { ps0 with Hostname := vanity }
    let mgr1 := mgr.SetProfile now vanity ps
    if vanity ≠ "" ∧ vanity ≠ dnsName ∧ ps.FQDN ≠ "" then
      let nm := dnsEndpointGenerateName vanity
      match c.CnameCreateOrUpdate s1 nm vanity ps.FQDN 300 with
      | (_, s2) =>
        ⟨.ok (), s2, mgr1,
          [.getProfileState cfg.ResourceGroup cfg.ProfileName, .mirrorSetProfile vanity,
            .cnameUpsert nm]⟩
    else
      ⟨.ok (), s1, mgr1,
        [.getProfileState cfg.ResourceGroup cfg.ProfileName, .mirrorSetProfile vanity]⟩

/-- createEndpoint after the profile has been created or fetched: target
resolution (the DNS name itself for A records, the record targets
otherwise), the creation loop, then refresh and CNAME. -/
def Provider.createEndpointsPhase {σ : Type} (c : Client σ) (s : σ) (mgr : Manager) (now : Int)
    (e : Endpoint) (cfg : TMConfig) (vanity : String) : RunResult σ :=
  let targets := if e.RecordType ≠ "A" ∧ 0 < e.Targets.length then e.Targets else [e.DNSName]
  let multi := decide (1 < e.Targets.length)
  let r := Provider.createTargets c s mgr now cfg vanity multi targets 0
  match r.res with
  | .error err => ⟨.error err, r.rem, r.mgr, r.trace⟩
  | .ok _ =>
    let r2 := Provider.createRefresh c r.rem r.mgr now cfg vanity e.DNSName
    ⟨r2.res, r2.rem, r2.mgr, r.trace ++ r2.trace⟩

/-- provider createEndpoint: TXT skip, parse, enabled check, validation,
name resolution, profile create with get-on-failure fallback, then the
endpoint creation phase. -/
def Provider.createEndpoint {σ : Type} (c : Client σ) (s : σ) (mgr : Manager) (now : Int)
    (e : Endpoint) : RunResult σ :=
  if e.RecordType = "TXT" then ⟨.ok (), s, mgr, []⟩
  else
    match ParseConfig e.annotationMap with
    | .error msg => ⟨.error ("failed to parse annotations: " ++ msg), s, mgr, []⟩
    | .ok cfg0 =>
      if cfg0.Enabled = false then ⟨.ok (), s, mgr, []⟩
      else
        match ValidateConfig cfg0 with
        | some msg => ⟨.error ("invalid Traffic Manager configuration: " ++ msg), s, mgr, []⟩
        | none =>
          let vanity := resolveVanity cfg0 e
          let cfg := resolveCreateNames cfg0 e vanity
          let pc := profileConfigWithHostnameTag cfg vanity
          match c.CreateProfile s pc with
          | (.ok _, s1) =>
            let r := Provider.createEndpointsPhase c s1 mgr now e cfg vanity
            ⟨r.res, r.rem, r.mgr, .createProfile pc.ResourceGroup pc.ProfileName :: r.trace⟩
          | (.error err, s1) =>
            match c.GetProfile s1 cfg.ResourceGroup cfg.ProfileName with
            | (.error gerr, s2) =>
              ⟨.error ("failed to create/get profile: " ++ gerr ++
                  " (original error: " ++ err ++ ")"), s2, mgr,
                [.createProfile pc.ResourceGroup pc.ProfileName,
                  .getProfile cfg.ResourceGroup cfg.ProfileName]⟩
            | (.ok _, s2) =>
              let r := Provider.createEndpointsPhase c s2 mgr now e cfg vanity
              ⟨r.res, r.rem, r.mgr,
                .createProfile pc.ResourceGroup pc.ProfileName ::
                  .getProfile cfg.ResourceGroup cfg.ProfileName :: r.trace⟩

/-- updateEndpoint's name generation: profile and endpoint names from the
new endpoint's DNS name, each only when unset. -/
def resolveUpdateNames (ncfg0 : TMConfig) (newE : Endpoint) : TMConfig :=
  let ncfg1 :=
    if ncfg0.ProfileName = "" then
      { ncfg0 with ProfileName := generateProfileName newE.DNSName }
    else ncfg0
  if ncfg1.EndpointName = "" then
    { ncfg1 with EndpointName := generateEndpointName newE.DNSName newE.Targets }
  else ncfg1

/-- The profile-level change test of updateEndpoint: routing method, DNS
TTL, monitor protocol/port/path, health-checks flag. -/
def profileFieldsDiffer (o n : TMConfig) : Prop :=
  o.RoutingMethod ≠ n.RoutingMethod ∨ o.DNSTTL ≠ n.DNSTTL ∨
  o.MonitorProtocol ≠ n.MonitorProtocol ∨ o.MonitorPort ≠ n.MonitorPort ∨
  o.MonitorPath ≠ n.MonitorPath ∨ o.HealthChecksEnabled ≠ n.HealthChecksEnabled

instance (o n : TMConfig) : Decidable (profileFieldsDiffer o n) := by
  unfold profileFieldsDiffer
  infer_instance

/-- updateEndpoint's per-target loop: a remote endpoint update (and a
mirror endpoint write keyed by the new endpoint's DNS name) only when the
old config parsed and weight or status changed. -/
def Provider.updateTargets {σ : Type} (c : Client σ) (s : σ) (mgr : Manager) (now : Int)
    (oldCfg : Option TMConfig) (ncfg : TMConfig) (dnsName : String) :
    List String → RunResult σ
  | [] => ⟨.ok (), s, mgr, []⟩
  | target :: rest =>
    let ec := ncfg.ToEndpointConfig target
    match oldCfg with
    | some o =>
      if o.Weight ≠ ncfg.Weight ∨ o.EndpointStatus ≠ ncfg.EndpointStatus then
        match c.UpdateEndpoint s ncfg.ResourceGroup ncfg.ProfileName ec with
        | (.error err, s1) =>
          ⟨.error ("failed to update endpoint " ++ ec.EndpointName ++ ": " ++ err), s1, mgr,
            [.updateEp ncfg.ResourceGroup ncfg.ProfileName ec.EndpointName]⟩
        | (.ok eps, s1) =>
          let mgr1 := mgr.SetEndpoint now dnsName ec.EndpointName (convertToStateEndpoint eps)
          let r := Provider.updateTargets c s1 mgr1 now oldCfg ncfg dnsName rest
          ⟨r.res, r.rem, r.mgr,
            .updateEp ncfg.ResourceGroup ncfg.ProfileName ec.EndpointName ::
              .mirrorSetEndpoint dnsName ec.EndpointName :: r.trace⟩
      else Provider.updateTargets c s mgr now oldCfg ncfg dnsName rest
    | none => Provider.updateTargets c s mgr now oldCfg ncfg dnsName rest

/-- updateEndpoint's final profile re-fetch and mirror write, keyed by the
new endpoint's DNS name. -/
def Provider.updateRefresh {σ : Type} (c : Client σ) (s : σ) (mgr : Manager) (now : Int)
    (ncfg : TMConfig) (dnsName : String) : RunResult σ :=
  match c.GetProfileState s ncfg.ResourceGroup ncfg.ProfileName with
  | (.error _, s1) =>
    ⟨.ok (), s1, mgr, [.getProfileState ncfg.ResourceGroup ncfg.ProfileName]⟩
  | (.ok ps0, s1) =>
    let ps := { ps0 with Hostname := dnsName }
    ⟨.ok (), s1, mgr.SetProfile now dnsName ps,
      [.getProfileState ncfg.ResourceGroup ncfg.ProfileName, .mirrorSetProfile dnsName]⟩

/-- The tail of updateEndpoint shared by both profile-update branches:
the endpoint loop then the refresh. -/
def Provider.updateTail {σ : Type} (c : Client σ) (s : σ) (mgr : Manager) (now : Int)
    (oldCfg : Option TMConfig) (ncfg : TMConfig) (dnsName : String)
    (targets : List String) : RunResult σ :=
  let r := Provider.updateTargets c s mgr now oldCfg ncfg dnsName targets
  match r.res with
  | .error err => ⟨.error err, r.rem, r.mgr, r.trace⟩
  | .ok _ =>
    let r2 := Provider.updateRefresh c r.rem r.mgr now ncfg dnsName
    ⟨r2.res, r2.rem, r2.mgr, r.trace ++ r2.trace⟩

/-- provider updateEndpoint: parse/validate the new config, best-effort
parse of the old one, names generated from the new DNS name, a remote
profile update only when a profile-level field differs (or the old config
failed to parse), then per-endpoint updates and the refresh. -/
def Provider.updateEndpoint {σ : Type} (c : Client σ) (s : σ) (mgr : Manager) (now : Int)
    (oldE newE : Endpoint) : RunResult σ :=
  match ParseConfig newE.Labels with
  | .error msg => ⟨.error ("failed to parse new annotations: " ++ msg), s, mgr, []⟩
  | .ok ncfg0 =>
    if ncfg0.Enabled = false then ⟨.ok (), s, mgr, []⟩
    else
      match ValidateConfig ncfg0 with
      | some msg => ⟨.error ("invalid Traffic Manager configuration: " ++ msg), s, mgr, []⟩
      | none =>
        let oldCfg := (ParseConfig oldE.Labels).toOption
        let ncfg := resolveUpdateNames ncfg0 newE
        let changed : Bool :=
          match oldCfg with
          | none => true
          | some o => decide (profileFieldsDiffer o ncfg)
        if changed then
          let pc := profileConfigWithHostnameTag ncfg newE.DNSName
          match c.UpdateProfile s pc with
          | (.error err, s1) =>
            ⟨.error ("failed to update profile: " ++ err), s1, mgr,
              [.updateProfile pc.ResourceGroup pc.ProfileName]⟩
          | (.ok _, s1) =>
            let r := Provider.updateTail c s1 mgr now oldCfg ncfg newE.DNSName newE.Targets
            ⟨r.res, r.rem, r.mgr, .updateProfile pc.ResourceGroup pc.ProfileName :: r.trace⟩
        else Provider.updateTail c s mgr now oldCfg ncfg newE.DNSName newE.Targets

/-- deleteEndpoint's name generation: profile and endpoint names from the
endpoint's DNS name, each only when unset. -/
def resolveDeleteNames (cfg0 : TMConfig) (e : Endpoint) : TMConfig :=
  let cfg1 :=
    if cfg0.ProfileName = "" then
      { cfg0 with ProfileName := generateProfileName e.DNSName }
    else cfg0
  if cfg1.EndpointName = "" then
    { cfg1 with EndpointName := generateEndpointName e.DNSName e.Targets }
  else cfg1

/-- deleteEndpoint's per-target loop: remote endpoint deletes whose
failures are logged and tolerated; the mirror endpoint removal (keyed by
the endpoint's DNS name) happens only on success. -/
def Provider.deleteTargets {σ : Type} (c : Client σ) (s : σ) (mgr : Manager) (now : Int)
    (cfg : TMConfig) (dnsName : String) : List String → RunResult σ
  | [] => ⟨.ok (), s, mgr, []⟩
  | _ :: rest =>
    match c.DeleteEndpoint s cfg.ResourceGroup cfg.ProfileName cfg.EndpointType cfg.EndpointName with
    | (.error _, s1) =>
      let r := Provider.deleteTargets c s1 mgr now cfg dnsName rest
      ⟨r.res, r.rem, r.mgr,
        .deleteEp cfg.ResourceGroup cfg.ProfileName cfg.EndpointType cfg.EndpointName :: r.trace⟩
    | (.ok _, s1) =>
      let mgr1 := mgr.DeleteEndpoint now dnsName cfg.EndpointName
      let r := Provider.deleteTargets c s1 mgr1 now cfg dnsName rest
      ⟨r.res, r.rem, r.mgr,
        .deleteEp cfg.ResourceGroup cfg.ProfileName cfg.EndpointType cfg.EndpointName ::
          .mirrorDeleteEndpoint dnsName cfg.EndpointName :: r.trace⟩

/-- deleteEndpoint after the per-target deletes: re-fetch the profile;
on zero endpoints delete the profile and, if that succeeded, drop the
vanity-hostname cache entry and best-effort delete the derived CNAME; on
remaining endpoints refresh the cache entry instead. -/
def Provider.deleteFinish {σ : Type} (c : Client σ) (s : σ) (mgr : Manager) (now : Int)
    (cfg : TMConfig) (vanity dnsName : String) : RunResult σ :=
  match c.GetProfileState s cfg.ResourceGroup cfg.ProfileName with
  | (.error _, s1) =>
    ⟨.ok (), s1, mgr, [.getProfileState cfg.ResourceGroup cfg.ProfileName]⟩
  | (.ok ps, s1) =>
    if ps.Endpoints.length = 0 then
      match c.DeleteProfile s1 cfg.ResourceGroup cfg.ProfileName with
      | (.error _, s2) =>
        ⟨.ok (), s2, mgr,
          [.getProfileState cfg.ResourceGroup cfg.ProfileName,
            .deleteProfile cfg.ResourceGroup cfg.ProfileName]⟩
      | (.ok _, s2) =>
        let mgr1 := mgr.DeleteProfile vanity
        if vanity ≠ "" ∧ vanity ≠ dnsName then
          match c.CnameDelete s2 (dnsEndpointGenerateName vanity) with
          | (_, s3) =>
            ⟨.ok (), s3, mgr1,
              [.getProfileState cfg.ResourceGroup cfg.ProfileName,
                .deleteProfile cfg.ResourceGroup cfg.ProfileName,
                .mirrorDeleteProfile vanity,
                .cnameDelete (dnsEndpointGenerateName vanity)]⟩
        else
          ⟨.ok (), s2, mgr1,
            [.getProfileState cfg.ResourceGroup cfg.ProfileName,
              .deleteProfile cfg.ResourceGroup cfg.ProfileName,
              .mirrorDeleteProfile vanity]⟩
    else
      let ps2 := { ps with Hostname := vanity }
      ⟨.ok (), s1, mgr.SetProfile now vanity ps2,
        [.getProfileState cfg.ResourceGroup cfg.ProfileName, .mirrorSetProfile vanity]⟩

/-- provider deleteEndpoint: parse, enabled check, vanity and name
resolution (profile name from the DNS name), tolerant per-target deletes,
then the empty-profile check; always returns nil. -/
def Provider.deleteEndpoint {σ : Type} (c : Client σ) (s : σ) (mgr : Manager) (now : Int)
    (e : Endpoint) : RunResult σ :=
  match ParseConfig e.Labels with
  | .error msg => ⟨.error ("failed to parse annotations: " ++ msg), s, mgr, []⟩
  | .ok cfg0 =>
    if cfg0.Enabled = false then ⟨.ok (), s, mgr, []⟩
    else
      let vanity := resolveVanity cfg0 e
      let cfg := resolveDeleteNames cfg0 e
      let r := Provider.deleteTargets c s mgr now cfg e.DNSName e.Targets
      let r2 := Provider.deleteFinish c r.rem r.mgr now cfg vanity e.DNSName
      ⟨.ok (), r2.rem, r2.mgr, r.trace ++ r2.trace⟩

/-- provider.Changes. -/
structure Changes where
  Create : List Endpoint
  UpdateOld : List Endpoint
  UpdateNew : List Endpoint
  Delete : List Endpoint
deriving DecidableEq, Repr

/-- The create loop of ApplyChanges: early return on the first error. -/
def Provider.processCreates {σ : Type} (c : Client σ) (s : σ) (mgr : Manager) (now : Int) :
    List Endpoint → RunResult σ
  | [] => ⟨.ok (), s, mgr, []⟩
  | e :: rest =>
    let r := Provider.createEndpoint c s mgr now e
    match r.res with
    | .error err => ⟨.error err, r.rem, r.mgr, r.trace⟩
    | .ok _ =>
      let r2 := Provider.processCreates c r.rem r.mgr now rest
      ⟨r2.res, r2.rem, r2.mgr, r.trace ++ r2.trace⟩

/-- The pairwise update loop of ApplyChanges. -/
def Provider.processUpdates {σ : Type} (c : Client σ) (s : σ) (mgr : Manager) (now : Int) :
    List (Endpoint × Endpoint) → RunResult σ
  | [] => ⟨.ok (), s, mgr, []⟩
  | p :: rest =>
    let r := Provider.updateEndpoint c s mgr now p.1 p.2
    match r.res with
    | .error err => ⟨.error err, r.rem, r.mgr, r.trace⟩
    | .ok _ =>
      let r2 := Provider.processUpdates c r.rem r.mgr now rest
      ⟨r2.res, r2.rem, r2.mgr, r.trace ++ r2.trace⟩

/-- The delete loop of ApplyChanges. -/
def Provider.processDeletes {σ : Type} (c : Client σ) (s : σ) (mgr : Manager) (now : Int) :
    List Endpoint → RunResult σ
  | [] => ⟨.ok (), s, mgr, []⟩
  | e :: rest =>
    let r := Provider.deleteEndpoint c s mgr now e
    match r.res with
    | .error err => ⟨.error err, r.rem, r.mgr, r.trace⟩
    | .ok _ =>
      let r2 := Provider.processDeletes c r.rem r.mgr now rest
      ⟨r2.res, r2.rem, r2.mgr, r.trace ++ r2.trace⟩

/-- provider ApplyChanges: creates, then the pairwise updates over
UpdateOld/UpdateNew, then deletes, each returning at the first error.
(The Go loop indexes UpdateNew by UpdateOld's indices; the zip is its total
model for equal-length batches.) -/
def Provider.ApplyChanges {σ : Type} (c : Client σ) (s : σ) (mgr : Manager) (now : Int)
    (ch : Changes) : RunResult σ :=
  let r1 := Provider.processCreates c s mgr now ch.Create
  match r1.res with
  | .error err => ⟨.error err, r1.rem, r1.mgr, r1.trace⟩
  | .ok _ =>
    let r2 := Provider.processUpdates c r1.rem r1.mgr now (ch.UpdateOld.zip ch.UpdateNew)
    match r2.res with
    | .error err => ⟨.error err, r2.rem, r2.mgr, r1.trace ++ r2.trace⟩
    | .ok _ =>
      let r3 := Provider.processDeletes c r2.rem r2.mgr now ch.Delete
      ⟨r3.res, r3.rem, r3.mgr, r1.trace ++ (r2.trace ++ r3.trace)⟩

/-- One batch item, in the order ApplyChanges processes them. -/
inductive ChangeItem where
  | create (e : Endpoint)
  | update (o n : Endpoint)
  | del (e : Endpoint)
deriving DecidableEq, Repr

/-- Dispatch of one batch item to the engine operation that handles it. -/
def Provider.runItem {σ : Type} (c : Client σ) (s : σ) (mgr : Manager) (now : Int) :
    ChangeItem → RunResult σ
  | .create e => Provider.createEndpoint c s mgr now e
  | .update o n => Provider.updateEndpoint c s mgr now o n
  | .del e => Provider.deleteEndpoint c s mgr now e

/-- Modelled on the spec's processing-order words: one strictly sequential
pass over the items, each processed exactly once, stopping at the first
item whose processing returns an error. -/
def seqRun {σ : Type} (c : Client σ) (s : σ) (mgr : Manager) (now : Int) :
    List ChangeItem → RunResult σ
  | [] => ⟨.ok (), s, mgr, []⟩
  | it :: rest =>
    let r := Provider.runItem c s mgr now it
    match r.res with
    | .error err => ⟨.error err, r.rem, r.mgr, r.trace⟩
    | .ok _ =>
      let r2 := seqRun c r.rem r.mgr now rest
      ⟨r2.res, r2.rem, r2.mgr, r.trace ++ r2.trace⟩

/-- The batch in processing order: creates, then the update pairs, then
deletes. -/
def orderedItems (ch : Changes) : List ChangeItem :=
  ch.Create.map ChangeItem.create ++
    (ch.UpdateOld.zip ch.UpdateNew).map (fun p => ChangeItem.update p.1 p.2) ++
    ch.Delete.map ChangeItem.del

/-- Recogniser for remote profile-update events. -/
def Event.isUpdateProfile : Event → Bool
  | .updateProfile _ _ => true
  | _ => false

/-- Recogniser for remote endpoint-update events. -/
def Event.isUpdateEp : Event → Bool
  | .updateEp _ _ _ => true
  | _ => false

/-- Recogniser for remote profile-delete events. -/
def Event.isDeleteProfile : Event → Bool
  | .deleteProfile _ _ => true
  | _ => false

/-- Number of remote profile updates in a trace. -/
def countUpdateProfile (tr : List Event) : Nat := tr.countP Event.isUpdateProfile

/-- Number of remote endpoint updates in a trace. -/
def countUpdateEp (tr : List Event) : Nat := tr.countP Event.isUpdateEp

/-- The hostnames under which a run stored a ProfileState in the mirror. -/
def profileWriteKeys (tr : List Event) : List String :=
  tr.filterMap fun ev =>
    match ev with
    | .mirrorSetProfile k => some k
    | _ => none

/-- The hostnames whose mirror entry a run removed. -/
def profileDeleteKeys (tr : List Event) : List String :=
  tr.filterMap fun ev =>
    match ev with
    | .mirrorDeleteProfile k => some k
    | _ => none

/-- The vanity hostname a createEndpoint run resolves (meaningful only on
parse success; runs that fail to parse write nothing). -/
def createVanity (e : Endpoint) : String :=
  match ParseConfig e.annotationMap with
  | .ok cfg => resolveVanity cfg e
  | .error _ => ""

/-- The vanity hostname a deleteEndpoint run resolves. -/
def deleteVanity (e : Endpoint) : String :=
  match ParseConfig e.Labels with
  | .ok cfg => resolveVanity cfg e
  | .error _ => ""

/-! ## An operational fake of the remote control plane (create-or-update
CRUD keyed by resource group and name), used to run end-to-end scenarios -/

/-- One profile of the fake remote control plane. -/
structure FakeProfile where
  name : String
  rg : String
  endpoints : List (String × EndpointState)
deriving DecidableEq, Repr

/-- The fake remote control plane: profiles keyed by (resource group,
profile name). -/
structure FakeRemote where
  profiles : List ((String × String) × FakeProfile)
deriving DecidableEq, Repr

/-- Profile lookup in the fake remote. -/
def findFake : List ((String × String) × FakeProfile) → String → String → Option FakeProfile
  | [], _, _ => none
  | (k, p) :: rest, rg, nm => if k = (rg, nm) then some p else findFake rest rg nm

/-- Profile upsert in the fake remote. -/
def putFake : List ((String × String) × FakeProfile) → String → String → FakeProfile →
    List ((String × String) × FakeProfile)
  | [], rg, nm, p => [((rg, nm), p)]
  | (k, q) :: rest, rg, nm, p =>
    if k = (rg, nm) then ((rg, nm), p) :: rest else (k, q) :: putFake rest rg nm p

/-- Profile removal in the fake remote. -/
def delFake : List ((String × String) × FakeProfile) → String → String →
    List ((String × String) × FakeProfile)
  | [], _, _ => []
  | (k, q) :: rest, rg, nm =>
    if k = (rg, nm) then delFake rest rg nm else (k, q) :: delFake rest rg nm

/-- The ProfileState the fake remote reports for a profile. -/
def FakeProfile.toState (p : FakeProfile) : ProfileState where
  ProfileName := p.name
  ResourceGroup := p.rg
  Hostname := ""
  FQDN := p.name ++ ".trafficmanager.net"
  RoutingMethod := "Weighted"
  DNSTTL := 30
  Endpoints := p.endpoints
  Tags := []
  CreatedAt := 0
  UpdatedAt := 0
  CachedAt := 0

/-- The EndpointState the fake remote stores for an endpoint request. -/
def epFromConfig (ec : TMEndpointConfig) : EndpointState where
  EndpointName := ec.EndpointName
  EndpointType := ec.EndpointType
  Target := ec.Target
  Weight := ec.Weight
  Priority := ec.Priority
  Status := ec.Status
  Location := ec.Location
  CreatedAt := 0
  UpdatedAt := 0

/-- A client implementing idempotent create-or-update CRUD over the fake
remote state. -/
def fakeClient : Client FakeRemote where
  CreateProfile := fun s pc =>
    match findFake s.profiles pc.ResourceGroup pc.ProfileName with
    | some p => (.ok p.toState, s)
    | none =>
      let p : FakeProfile := ⟨pc.ProfileName, pc.ResourceGroup, []⟩
      (.ok p.toState, ⟨putFake s.profiles pc.ResourceGroup pc.ProfileName p⟩)
  GetProfile := fun s rg nm =>
    match findFake s.profiles rg nm with
    | some p => (.ok p.toState, s)
    | none => (.error "profile not found", s)
  CreateEndpoint := fun s rg nm ec =>
    match findFake s.profiles rg nm with
    | some p =>
      let p2 := { p with endpoints := insertAssoc p.endpoints ec.EndpointName (epFromConfig ec) }
      (.ok (epFromConfig ec), ⟨putFake s.profiles rg nm p2⟩)
    | none => (.error "profile not found", s)
  UpdateProfile := fun s pc =>
    match findFake s.profiles pc.ResourceGroup pc.ProfileName with
    | some p => (.ok p.toState, s)
    | none => (.error "profile not found", s)
  UpdateEndpoint := fun s rg nm ec =>
    match findFake s.profiles rg nm with
    | some p =>
      let p2 := { p with endpoints := insertAssoc p.endpoints ec.EndpointName (epFromConfig ec) }
      (.ok (epFromConfig ec), ⟨putFake s.profiles rg nm p2⟩)
    | none => (.error "profile not found", s)
  DeleteEndpoint := fun s rg nm _ty en =>
    match findFake s.profiles rg nm with
    | some p =>
      match lookupA p.endpoints en with
      | some _ =>
        (.ok (), ⟨putFake s.profiles rg nm { p with endpoints := removeAssoc p.endpoints en }⟩)
      | none => (.error "endpoint not found", s)
    | none => (.error "profile not found", s)
  GetProfileState := fun s rg nm =>
    match findFake s.profiles rg nm with
    | some p => (.ok p.toState, s)
    | none => (.error "profile not found", s)
  DeleteProfile := fun s rg nm =>
    match findFake s.profiles rg nm with
    | some _ => (.ok (), ⟨delFake s.profiles rg nm⟩)
    | none => (.error "profile not found", s)
  CnameCreateOrUpdate := fun s _ _ _ _ => (.ok (), s)
  CnameDelete := fun s _ => (.ok (), s)

/-! ## Concrete clients used to instantiate the engine theorems -/

/-- A fixed remote profile answer for the all-succeeding client. -/
def sampleProfileState : ProfileState where
  ProfileName := "p"
  ResourceGroup := "rg"
  Hostname := ""
  FQDN := "p.trafficmanager.net"
  RoutingMethod := "Weighted"
  DNSTTL := 30
  Endpoints := []
  Tags := []
  CreatedAt := 0
  UpdatedAt := 0
  CachedAt := 0

/-- A fixed remote endpoint answer for the all-succeeding client. -/
def sampleEndpointState : EndpointState where
  EndpointName := "ep"
  EndpointType := "ExternalEndpoints"
  Target := "t"
  Weight := 100
  Priority := 1
  Status := "Enabled"
  Location := ""
  CreatedAt := 0
  UpdatedAt := 0

/-- A remote client whose every call succeeds with fixed answers. -/
def okClient : Client Unit where
  CreateProfile := fun s _ => (.ok sampleProfileState, s)
  GetProfile := fun s _ _ => (.ok sampleProfileState, s)
  CreateEndpoint := fun s _ _ _ => (.ok sampleEndpointState, s)
  UpdateProfile := fun s _ => (.ok sampleProfileState, s)
  UpdateEndpoint := fun s _ _ _ => (.ok sampleEndpointState, s)
  DeleteEndpoint := fun s _ _ _ _ => (.ok (), s)
  GetProfileState := fun s _ _ => (.ok sampleProfileState, s)
  DeleteProfile := fun s _ _ => (.ok (), s)
  CnameCreateOrUpdate := fun s _ _ _ _ => (.ok (), s)
  CnameDelete := fun s _ => (.ok (), s)

/-- A remote client whose every call fails. -/
def errClient : Client Unit where
  CreateProfile := fun s _ => (.error "remote unavailable", s)
  GetProfile := fun s _ _ => (.error "remote unavailable", s)
  CreateEndpoint := fun s _ _ _ => (.error "remote unavailable", s)
  UpdateProfile := fun s _ => (.error "remote unavailable", s)
  UpdateEndpoint := fun s _ _ _ => (.error "remote unavailable", s)
  DeleteEndpoint := fun s _ _ _ _ => (.error "remote unavailable", s)
  GetProfileState := fun s _ _ => (.error "remote unavailable", s)
  DeleteProfile := fun s _ _ => (.error "remote unavailable", s)
  CnameCreateOrUpdate := fun s _ _ _ _ => (.error "remote unavailable", s)
  CnameDelete := fun s _ => (.error "remote unavailable", s)

/-- A client whose profile creation fails ("already exists") but whose
reads succeed. -/
def conflictClient : Client Unit :=
  { okClient with CreateProfile := fun s _ => (.error "profile already exists", s) }

/-- A concrete enabled A-record endpoint with well-formed annotations. -/
def c1Endpoint : Endpoint where
  DNSName := "app.example.com"
  Targets := ["1.2.3.4"]
  RecordType := "A"
  SetIdentifier := ""
  RecordTTL := 300
  Labels := [(AnnotationEnabled, "true"), (AnnotationResourceGroup, "my-rg"),
    (AnnotationEndpointLocation, "East US")]
  ProviderSpecific := []

/-- The parse of c1Endpoint's annotations. -/
def c1Config : TMConfig :=
  { defaultTMConfig with Enabled := true, ResourceGroup := "my-rg", EndpointLocation := "East US" }

/-- c1Config after createEndpoint's name generation. -/
def c1Named : TMConfig := resolveCreateNames c1Config c1Endpoint "app.example.com"

/-- The old endpoint of the weight-only update scenario. -/
def c4old : Endpoint where
  DNSName := "app.example.com"
  Targets := ["1.2.3.4"]
  RecordType := "A"
  SetIdentifier := ""
  RecordTTL := 300
  Labels := [(AnnotationEnabled, "true"), (AnnotationResourceGroup, "my-rg"),
    (AnnotationEndpointLocation, "East US"), (AnnotationWeight, "200")]
  ProviderSpecific := []

/-- The new endpoint of the weight-only update scenario: weight 200 → 300. -/
def c4new : Endpoint where
  DNSName := "app.example.com"
  Targets := ["1.2.3.4"]
  RecordType := "A"
  SetIdentifier := ""
  RecordTTL := 300
  Labels := [(AnnotationEnabled, "true"), (AnnotationResourceGroup, "my-rg"),
    (AnnotationEndpointLocation, "East US"), (AnnotationWeight, "300")]
  ProviderSpecific := []

/-- The concrete endpoint of the C2 counterexample: its hostname annotation
is a vanity hostname distinct from its DNS name. -/
def c2e : Endpoint where
  DNSName := "svc.example.com"
  Targets := ["1.2.3.4"]
  RecordType := "A"
  SetIdentifier := ""
  RecordTTL := 300
  Labels := [(AnnotationEnabled, "true"), (AnnotationResourceGroup, "my-rg"),
    (AnnotationHostname, "vanity.example.com"), (AnnotationEndpointLocation, "East US")]
  ProviderSpecific := []

/-- A fake remote holding one profile with one endpoint, as left by a
previous Create of c1Endpoint. -/
def fr0 : FakeRemote :=
  ⟨[(("my-rg", "app-example-com-tm"),
    ⟨"app-example-com-tm", "my-rg", [("1-2-3-4", sampleEndpointState)]⟩)]⟩

/-- One heap extends another when every store grew by appending. -/
structure HeapLE (H H2 : Heap) : Prop where
  profs : ∃ t, H2.profs = H.profs ++ t
  epMaps : ∃ t, H2.epMaps = H.epMaps ++ t
  tagMaps : ∃ t, H2.tagMaps = H.tagMaps ++ t
  eps : ∃ t, H2.eps = H.eps ++ t

/-- A one-profile heap exercising the mirror round trip. -/
def w8Heap : Heap :=
  ⟨[⟨"app-example-com-tm", "my-rg", "app.example.com",
     "app-example-com-tm.trafficmanager.net", "Weighted", 30, 0, 0, 5, 0, 0⟩],
   [[("1-2-3-4", 0)]],
   [[("managed-by", "external-dns")]],
   [⟨"1-2-3-4", "ExternalEndpoints", "1.2.3.4", 100, 0, "Enabled", "", 0, 0⟩]⟩

/-- The profile object stored at address 0 of w8Heap. -/
def w8Po : HProfile :=
  ⟨"app-example-com-tm", "my-rg", "app.example.com",
   "app-example-com-tm.trafficmanager.net", "Weighted", 30, 0, 0, 5, 0, 0⟩

/-- The deep value at address 0 of w8Heap. -/
def w8Pv : ProfileState :=
  ⟨"app-example-com-tm", "my-rg", "app.example.com",
   "app-example-com-tm.trafficmanager.net", "Weighted", 30,
   [("1-2-3-4", ⟨"1-2-3-4", "ExternalEndpoints", "1.2.3.4", 100, 0, "Enabled", "", 0, 0⟩)],
   [("managed-by", "external-dns")], 0, 0, 5⟩

/-! ## Theorems -/

/-- Cloning an endpoint record rebuilds every field, so at the value level
it is the identity. -/
theorem EndpointState.clone_id (es : EndpointState) : es.clone = es := rfl

/-- Value-level identity of ProfileState.Clone. -/
theorem ProfileState.clone_ident (ps : ProfileState) : ps.clone = ps := by
  cases ps with
  | mk pn rg hn fq rm ttl eps tags ca ua cached =>
    simp [ProfileState.clone, EndpointState.clone_id]

/-- Inserting then looking up the same key finds the new value. -/
theorem lookupA_insertAssoc_self {α : Type} (l : List (String × α)) (k : String) (v : α) :
    lookupA (insertAssoc l k v) k = some v := by
  induction l with
  | nil => simp [insertAssoc, lookupA]
  | cons kv rest ih =>
    by_cases h : kv.1 = k
    · simp [insertAssoc, h, lookupA]
    · simp [insertAssoc, h, lookupA, ih]

/-- The Boolean expiry check unfolded to the arithmetic condition. -/
theorem ProfileState.isExpired_iff (ps : ProfileState) (ttl now : Int) :
    ps.IsExpired ttl now = true ↔ (ps.CachedAt = 0 ∨ ttl < now - ps.CachedAt) := by
  unfold ProfileState.IsExpired
  by_cases h : ps.CachedAt = 0 <;> simp [h]

/-- C3: for every annotation map in which the enabled key is absent or its
value is not case-insensitively "true", ParseConfig returns a disabled
configuration and no error regardless of all other entries, and
ValidateConfig of that disabled configuration returns nil. -/
theorem parse_disabled_short_circuit (labels : Labels)
    (h : ∀ v, lookupLabel labels AnnotationEnabled = some v → asciiToLower v ≠ "true") :
    ∃ cfg, ParseConfig labels = .ok cfg ∧ cfg.Enabled = false ∧ ValidateConfig cfg = none := by
  refine ⟨defaultTMConfig, ?_, rfl, rfl⟩
  unfold ParseConfig
  rcases hv : lookupLabel labels AnnotationEnabled with _ | v
  · simp only [hv]
    rfl
  · have hb : (asciiToLower v == "true") = false := by
      simpa using h v hv
    simp only [hv, hb]
    rfl

/-- Witness for C3 at a concrete annotation map holding a malformed weight. -/
theorem parse_disabled_short_circuit_witness :
    ∃ cfg, ParseConfig [(AnnotationEnabled, "no"), (AnnotationWeight, "zzz")] = .ok cfg ∧
      cfg.Enabled = false ∧ ValidateConfig cfg = none :=
  parse_disabled_short_circuit [(AnnotationEnabled, "no"), (AnnotationWeight, "zzz")]
    (fun v hv => by
      have h0 : lookupLabel [(AnnotationEnabled, "no"), (AnnotationWeight, "zzz")]
          AnnotationEnabled = some "no" := by decide
      injection (h0.symm.trans hv) with h1
      subst h1
      decide)

/-- C7: GetProfile reports an entry absent exactly when nothing is stored
for the hostname, or the stored CachedAt is the zero value, or now minus
CachedAt exceeds the configured TTL; an expired entry is not removed by
GetProfile (the profile map is unchanged), and only a later SetProfile
overwrites it. -/
theorem getProfile_absent_iff (m : Manager) (now : Int) (h : String) :
    ((m.GetProfile now h).1 = none ↔
      (lookupA m.profiles h = none ∨
        ∃ ps, lookupA m.profiles h = some ps ∧
          (ps.CachedAt = 0 ∨ m.cacheTTL < now - ps.CachedAt))) ∧
    (m.GetProfile now h).2 = m ∧
    ∀ (now2 : Int) (p : ProfileState),
      lookupA ((m.SetProfile now2 h p).profiles) h = some { p with CachedAt := now2 } := by
  refine ⟨?_, ?_, ?_⟩
  · rcases hl : lookupA m.profiles h with _ | ps
    · simp [Manager.GetProfile, hl]
    · by_cases hexp : ps.IsExpired m.cacheTTL now
      · simp only [Manager.GetProfile, hl, hexp, if_true]
        simp only [true_iff]
        exact Or.inr ⟨ps, rfl, (ProfileState.isExpired_iff ps m.cacheTTL now).mp hexp⟩
      · simp only [Manager.GetProfile, hl, hexp, if_false]
        constructor
        · intro hfalse
          simp at hfalse
        · rintro (hnone | ⟨ps2, hps2, hcond⟩)
          · simp at hnone
          · injection hps2 with heq
            subst heq
            exact absurd ((ProfileState.isExpired_iff _ _ _).mpr hcond) hexp
  · rcases hl : lookupA m.profiles h with _ | ps
    · simp [Manager.GetProfile, hl]
    · by_cases hexp : ps.IsExpired m.cacheTTL now <;>
        simp [Manager.GetProfile, hl, hexp]
  · intro now2 p
    simp [Manager.SetProfile, lookupA_insertAssoc_self, ProfileState.clone_ident]

/-- C10: SetEndpoint for a hostname with no stored profile entry leaves the
State Mirror entirely unchanged, and a subsequent GetEndpoint for that
hostname and endpoint name reports not-found. -/
theorem setEndpoint_missing_profile_noop (m : Manager) (now now2 : Int)
    (h n : String) (ep : EndpointState) (hm : lookupA m.profiles h = none) :
    m.SetEndpoint now h n ep = m ∧
    ((m.SetEndpoint now h n ep).GetEndpoint now2 h n).1 = none := by
  have h1 : m.SetEndpoint now h n ep = m := by
    simp [Manager.SetEndpoint, hm]
  refine ⟨h1, ?_⟩
  rw [h1]
  simp [Manager.GetEndpoint, Manager.GetProfile, hm]

/-- Splitting an Except bind that returned ok. -/
theorem except_bind_ok {α β : Type} {a : Except String α} {f : α → Except String β} {b : β} :
    (a >>= f) = .ok b ↔ ∃ x, a = .ok x ∧ f x = .ok b := by
  cases a <;> simp [Bind.bind, Except.bind]

/-- A string-annotation parse step leaves any field its setter leaves. -/
theorem setStrField_proj {α : Type} (labels : Labels) (key : String)
    (set : TMConfig → String → TMConfig) (c : TMConfig) (f : TMConfig → α)
    (hset : ∀ c2 v, f (set c2 v) = f c2) :
    f (setStrField labels key set c) = f c := by
  unfold setStrField
  rcases lookupLabel labels key with _ | v
  · rfl
  · by_cases hv : v = "" <;> simp [hv, hset]

/-- A numeric-annotation parse step that returned ok leaves any field its
setter leaves. -/
theorem setIntField_ok_proj {α : Type} {labels : Labels} {key nm : String}
    {set : TMConfig → Int → TMConfig} {c c2 : TMConfig} (f : TMConfig → α)
    (hset : ∀ c3 n, f (set c3 n) = f c3)
    (h : setIntField labels key nm set c = .ok c2) :
    f c2 = f c := by
  unfold setIntField at h
  split at h
  · split at h
    · injection h with h
      subst h
      rfl
    · split at h
      · injection h with h
        subst h
        exact hset c _
      · cases h
  · injection h with h
    subst h
    rfl

/-- The boolean-annotation parse step that returned ok leaves any field its
setter leaves. -/
theorem setBoolField_ok_proj {α : Type} {labels : Labels} {key nm : String}
    {set : TMConfig → Bool → TMConfig} {c c2 : TMConfig} (f : TMConfig → α)
    (hset : ∀ c3 b, f (set c3 b) = f c3)
    (h : setBoolField labels key nm set c = .ok c2) :
    f c2 = f c := by
  unfold setBoolField at h
  split at h
  · split at h
    · injection h with h
      subst h
      rfl
    · split at h
      · injection h with h
        subst h
        exact hset c _
      · cases h
  · injection h with h
    subst h
    rfl

/-- A numeric-annotation parse step with a present, non-empty, parseable
value applies its setter with the parsed number. -/
theorem setIntField_ok_set {labels : Labels} {key nm : String}
    {set : TMConfig → Int → TMConfig} {c c2 : TMConfig} {v : String} {n : Int}
    (hl : lookupLabel labels key = some v) (hv : v ≠ "") (hp : parseInt64 v = .ok n)
    (h : setIntField labels key nm set c = .ok c2) :
    c2 = set c n := by
  unfold setIntField at h
  simp only [hl, if_neg hv, hp] at h
  injection h with h
  exact h.symm

/-- setStrField preserves the ResourceGroup field of a setter that does. -/
theorem setStrField_rg (labels : Labels) (key : String)
    (set : TMConfig → String → TMConfig) (c : TMConfig)
    (hset : ∀ c2 v, (set c2 v).ResourceGroup = c2.ResourceGroup) :
    (setStrField labels key set c).ResourceGroup = c.ResourceGroup :=
  setStrField_proj labels key set c (fun c => c.ResourceGroup) hset

/-- setStrField preserves the Weight field of a setter that does. -/
theorem setStrField_weight (labels : Labels) (key : String)
    (set : TMConfig → String → TMConfig) (c : TMConfig)
    (hset : ∀ c2 v, (set c2 v).Weight = c2.Weight) :
    (setStrField labels key set c).Weight = c.Weight :=
  setStrField_proj labels key set c (fun c => c.Weight) hset

/-- An ok setIntField step preserves the ResourceGroup field of a setter
that does. -/
theorem setIntField_ok_rg {labels : Labels} {key nm : String}
    {set : TMConfig → Int → TMConfig} {c c2 : TMConfig}
    (h : setIntField labels key nm set c = .ok c2)
    (hset : ∀ c3 n, (set c3 n).ResourceGroup = c3.ResourceGroup) :
    c2.ResourceGroup = c.ResourceGroup :=
  setIntField_ok_proj (fun c => c.ResourceGroup) hset h

/-- An ok setIntField step preserves the Weight field of a setter that
does. -/
theorem setIntField_ok_weight {labels : Labels} {key nm : String}
    {set : TMConfig → Int → TMConfig} {c c2 : TMConfig}
    (h : setIntField labels key nm set c = .ok c2)
    (hset : ∀ c3 n, (set c3 n).Weight = c3.Weight) :
    c2.Weight = c.Weight :=
  setIntField_ok_proj (fun c => c.Weight) hset h

/-- An ok setBoolField step preserves the ResourceGroup field of a setter
that does. -/
theorem setBoolField_ok_rg {labels : Labels} {key nm : String}
    {set : TMConfig → Bool → TMConfig} {c c2 : TMConfig}
    (h : setBoolField labels key nm set c = .ok c2)
    (hset : ∀ c3 b, (set c3 b).ResourceGroup = c3.ResourceGroup) :
    c2.ResourceGroup = c.ResourceGroup :=
  setBoolField_ok_proj (fun c => c.ResourceGroup) hset h

/-- An ok setBoolField step preserves the Weight field of a setter that
does. -/
theorem setBoolField_ok_weight {labels : Labels} {key nm : String}
    {set : TMConfig → Bool → TMConfig} {c c2 : TMConfig}
    (h : setBoolField labels key nm set c = .ok c2)
    (hset : ∀ c3 b, (set c3 b).Weight = c3.Weight) :
    c2.Weight = c.Weight :=
  setBoolField_ok_proj (fun c => c.Weight) hset h

/-- A successful enabled parse pins down ResourceGroup non-emptiness and
the Weight field from a present weight annotation. -/
theorem ParseConfig_ok_enabled (labels : Labels) (cfg : TMConfig)
    (h : ParseConfig labels = .ok cfg) (hen : cfg.Enabled = true) :
    cfg.ResourceGroup ≠ "" ∧
    ∀ v n, lookupLabel labels AnnotationWeight = some v → v ≠ "" →
      parseInt64 v = .ok n → cfg.Weight = n := by
  unfold ParseConfig at h
  rcases hv0 : lookupLabel labels AnnotationEnabled with _ | ev <;>
    simp only [hv0] at h
  · split at h
    · injection h with h
      rw [← h] at hen
      simp [defaultTMConfig] at hen
    · next hcond => exact absurd rfl hcond
  · split at h
    · next hcond =>
      injection h with h
      rw [← h] at hen
      simp at hen hcond
      exact absurd hen hcond
    · split at h
      · cases h
      · next hrg =>
        simp only [except_bind_ok, pure, Except.pure] at h
        obtain ⟨c5, hc5, c6, hc6, c10, hc10, c12, hc12, c14, hc14, hfin⟩ := h
        injection hfin with hfin
        subst hfin
        constructor
        · rw [setBoolField_ok_rg hc14 (fun _ _ => rfl),
            setStrField_rg labels AnnotationMonitorPath setMonitorPathF _ (fun _ _ => rfl),
            setIntField_ok_rg hc12 (fun _ _ => rfl),
            setStrField_rg labels AnnotationMonitorProtocol setMonitorProtocolF _ (fun _ _ => rfl),
            setIntField_ok_rg hc10 (fun _ _ => rfl),
            setStrField_rg labels AnnotationEndpointStatus setEndpointStatusF _ (fun _ _ => rfl),
            setStrField_rg labels AnnotationEndpointLocation setEndpointLocationF _ (fun _ _ => rfl),
            setStrField_rg labels AnnotationEndpointName setEndpointNameF _ (fun _ _ => rfl),
            setIntField_ok_rg hc6 (fun _ _ => rfl),
            setIntField_ok_rg hc5 (fun _ _ => rfl),
            setStrField_rg labels AnnotationRoutingMethod setRoutingMethodF _ (fun _ _ => rfl),
            setStrField_rg labels AnnotationHostname setHostnameF _ (fun _ _ => rfl),
            setStrField_rg labels AnnotationProfileName setProfileNameF _ (fun _ _ => rfl)]
          exact hrg
        · intro v n hlv hv hp
          rw [setBoolField_ok_weight hc14 (fun _ _ => rfl),
            setStrField_weight labels AnnotationMonitorPath setMonitorPathF _ (fun _ _ => rfl),
            setIntField_ok_weight hc12 (fun _ _ => rfl),
            setStrField_weight labels AnnotationMonitorProtocol setMonitorProtocolF _ (fun _ _ => rfl),
            setIntField_ok_weight hc10 (fun _ _ => rfl),
            setStrField_weight labels AnnotationEndpointStatus setEndpointStatusF _ (fun _ _ => rfl),
            setStrField_weight labels AnnotationEndpointLocation setEndpointLocationF _ (fun _ _ => rfl),
            setStrField_weight labels AnnotationEndpointName setEndpointNameF _ (fun _ _ => rfl),
            setIntField_ok_weight hc6 (fun _ _ => rfl),
            setIntField_ok_set hlv hv hp hc5]
          rfl

/-- C6: a Create whose annotations enable the feature and carry weight
"1500" (other fields well-formed, so parsing succeeds) fails with an error
message naming "weight", and issues no remote call of any kind: the run
ends with the remote state and State Mirror untouched and an empty trace. -/
theorem create_invalid_weight_fails_before_remote {σ : Type} (c : Client σ) (s : σ)
    (mgr : Manager) (now : Int) (e : Endpoint) (cfg : TMConfig)
    (hTXT : e.RecordType ≠ "TXT")
    (hparse : ParseConfig e.annotationMap = .ok cfg)
    (hen : cfg.Enabled = true)
    (hweight : lookupLabel e.annotationMap AnnotationWeight = some "1500") :
    Provider.createEndpoint c s mgr now e =
      ⟨.error ("invalid Traffic Manager configuration: " ++
        "weight must be between 1 and 1000, got 1500"), s, mgr, []⟩ ∧
    ∃ a b, ("invalid Traffic Manager configuration: " ++
        "weight must be between 1 and 1000, got 1500") = a ++ "weight" ++ b := by
  obtain ⟨hrg, hwfun⟩ := ParseConfig_ok_enabled _ _ hparse hen
  have hW : cfg.Weight = 1500 := hwfun "1500" 1500 hweight (by decide) (by decide)
  have hval : ValidateConfig cfg = some "weight must be between 1 and 1000, got 1500" := by
    unfold ValidateConfig
    rw [if_neg (by simp [hen]), if_neg hrg, if_pos (by rw [hW]; decide), hW]
    rfl
  constructor
  · unfold Provider.createEndpoint
    rw [if_neg hTXT]
    simp only [hparse]
    rw [if_neg (by simp [hen])]
    simp only [hval]
  · exact ⟨"invalid Traffic Manager configuration: ",
      " must be between 1 and 1000, got 1500", rfl⟩

/-- Witness for C6: a concrete A-record Create with weight "1500". -/
theorem create_invalid_weight_witness :
    Provider.createEndpoint errClient () (Manager.New 300) 0
      ⟨"app.example.com", ["1.2.3.4"], "A", "", 300,
        [(AnnotationEnabled, "true"), (AnnotationResourceGroup, "my-rg"),
          (AnnotationWeight, "1500")], []⟩ =
      ⟨.error ("invalid Traffic Manager configuration: " ++
        "weight must be between 1 and 1000, got 1500"), (), Manager.New 300, []⟩ ∧
    ∃ a b, ("invalid Traffic Manager configuration: " ++
        "weight must be between 1 and 1000, got 1500") = a ++ "weight" ++ b :=
  create_invalid_weight_fails_before_remote errClient () (Manager.New 300) 0
    ⟨"app.example.com", ["1.2.3.4"], "A", "", 300,
      [(AnnotationEnabled, "true"), (AnnotationResourceGroup, "my-rg"),
        (AnnotationWeight, "1500")], []⟩
    { defaultTMConfig with Enabled := true, ResourceGroup := "my-rg", Weight := 1500 }
    (by decide) (by decide) (by decide) (by decide)

/-- Witness for C10 on an empty manager. -/
theorem setEndpoint_missing_profile_noop_witness :
    (Manager.New 300).SetEndpoint 5 "app.example.com" "ep1"
        ⟨"ep1", "ExternalEndpoints", "1.2.3.4", 100, 1, "Enabled", "eastus", 0, 0⟩ =
      Manager.New 300 ∧
    (((Manager.New 300).SetEndpoint 5 "app.example.com" "ep1"
        ⟨"ep1", "ExternalEndpoints", "1.2.3.4", 100, 1, "Enabled", "eastus", 0, 0⟩).GetEndpoint
        6 "app.example.com" "ep1").1 = none :=
  setEndpoint_missing_profile_noop (Manager.New 300) 5 6 "app.example.com" "ep1"
    ⟨"ep1", "ExternalEndpoints", "1.2.3.4", 100, 1, "Enabled", "eastus", 0, 0⟩ (by decide)

/-- C1: when the remote profile creation call of a Create fails, the engine
falls back to fetching the profile by name; the operation aborts at this
step exactly when the fetch also fails, and a successful fetch continues
into the endpoint-creation phase against the existing profile. -/
theorem create_profile_conflict_fallback {σ : Type} (c : Client σ) (s : σ)
    (mgr : Manager) (now : Int) (e : Endpoint) (cfg0 : TMConfig) (err : String) (s1 : σ)
    (vanity : String) (cfg : TMConfig) (pc : ProfileConfig)
    (hTXT : e.RecordType ≠ "TXT")
    (hparse : ParseConfig e.annotationMap = .ok cfg0)
    (hen : cfg0.Enabled = true)
    (hval : ValidateConfig cfg0 = none)
    (hv : vanity = resolveVanity cfg0 e)
    (hc : cfg = resolveCreateNames cfg0 e vanity)
    (hpc : pc = profileConfigWithHostnameTag cfg vanity)
    (hcp : c.CreateProfile s pc = (.error err, s1)) :
    (∀ gerr s2, c.GetProfile s1 cfg.ResourceGroup cfg.ProfileName = (.error gerr, s2) →
      Provider.createEndpoint c s mgr now e =
        ⟨.error ("failed to create/get profile: " ++ gerr ++ " (original error: " ++ err ++ ")"),
          s2, mgr,
          [.createProfile pc.ResourceGroup pc.ProfileName,
            .getProfile cfg.ResourceGroup cfg.ProfileName]⟩) ∧
    (∀ p s2, c.GetProfile s1 cfg.ResourceGroup cfg.ProfileName = (.ok p, s2) →
      Provider.createEndpoint c s mgr now e =
        ⟨(Provider.createEndpointsPhase c s2 mgr now e cfg vanity).res,
          (Provider.createEndpointsPhase c s2 mgr now e cfg vanity).rem,
          (Provider.createEndpointsPhase c s2 mgr now e cfg vanity).mgr,
          .createProfile pc.ResourceGroup pc.ProfileName ::
            .getProfile cfg.ResourceGroup cfg.ProfileName ::
            (Provider.createEndpointsPhase c s2 mgr now e cfg vanity).trace⟩) := by
  subst hv
  subst hc
  subst hpc
  constructor
  · intro gerr s2 hget
    unfold Provider.createEndpoint
    rw [if_neg hTXT]
    simp only [hparse]
    rw [if_neg (by simp [hen])]
    simp only [hval, hcp, hget]
  · intro p s2 hget
    unfold Provider.createEndpoint
    rw [if_neg hTXT]
    simp only [hparse]
    rw [if_neg (by simp [hen])]
    simp only [hval, hcp, hget]

/-- Witness for C1: a conflicting create followed by a successful fetch on
a concrete endpoint. -/
theorem create_profile_conflict_fallback_witness :
    Provider.createEndpoint conflictClient () (Manager.New 300) 0 c1Endpoint =
      ⟨(Provider.createEndpointsPhase conflictClient () (Manager.New 300) 0 c1Endpoint c1Named
          "app.example.com").res,
        (Provider.createEndpointsPhase conflictClient () (Manager.New 300) 0 c1Endpoint c1Named
          "app.example.com").rem,
        (Provider.createEndpointsPhase conflictClient () (Manager.New 300) 0 c1Endpoint c1Named
          "app.example.com").mgr,
        .createProfile (profileConfigWithHostnameTag c1Named "app.example.com").ResourceGroup
            (profileConfigWithHostnameTag c1Named "app.example.com").ProfileName ::
          .getProfile c1Named.ResourceGroup c1Named.ProfileName ::
          (Provider.createEndpointsPhase conflictClient () (Manager.New 300) 0 c1Endpoint c1Named
            "app.example.com").trace⟩ := by
  have h := create_profile_conflict_fallback conflictClient () (Manager.New 300) 0 c1Endpoint
    c1Config "profile already exists" () "app.example.com" c1Named
    (profileConfigWithHostnameTag c1Named "app.example.com")
    (by decide) (by decide) (by decide) (by decide) (by decide) rfl rfl (by decide)
  exact h.2 sampleProfileState () (by decide)

/-- seqRun splits over list concatenation, with early exit on an error in
the first part. -/
theorem seqRun_append {σ : Type} (c : Client σ) (now : Int) (l1 l2 : List ChangeItem) :
    ∀ (s : σ) (mgr : Manager),
    seqRun c s mgr now (l1 ++ l2) =
      (match (seqRun c s mgr now l1).res with
       | .error err => ⟨.error err, (seqRun c s mgr now l1).rem, (seqRun c s mgr now l1).mgr,
           (seqRun c s mgr now l1).trace⟩
       | .ok _ =>
         ⟨(seqRun c (seqRun c s mgr now l1).rem (seqRun c s mgr now l1).mgr now l2).res,
           (seqRun c (seqRun c s mgr now l1).rem (seqRun c s mgr now l1).mgr now l2).rem,
           (seqRun c (seqRun c s mgr now l1).rem (seqRun c s mgr now l1).mgr now l2).mgr,
           (seqRun c s mgr now l1).trace ++
             (seqRun c (seqRun c s mgr now l1).rem (seqRun c s mgr now l1).mgr now l2).trace⟩) := by
  induction l1 with
  | nil =>
    intro s mgr
    simp [seqRun]
  | cons it rest ih =>
    intro s mgr
    simp only [List.cons_append, seqRun]
    cases hr : (Provider.runItem c s mgr now it).res with
    | error err => simp [hr]
    | ok _ =>
      simp only [hr, List.append_eq]
      rw [ih]
      cases hr2 : (seqRun c (Provider.runItem c s mgr now it).rem
          (Provider.runItem c s mgr now it).mgr now rest).res with
      | error err2 => simp [hr2]
      | ok _ => simp [hr2, List.append_assoc]

/-- The create loop is seqRun over create items. -/
theorem processCreates_eq {σ : Type} (c : Client σ) (now : Int) (l : List Endpoint) :
    ∀ (s : σ) (mgr : Manager),
    Provider.processCreates c s mgr now l = seqRun c s mgr now (l.map ChangeItem.create) := by
  induction l with
  | nil => intro s mgr; rfl
  | cons e rest ih =>
    intro s mgr
    simp only [List.map_cons, Provider.processCreates, seqRun, Provider.runItem]
    cases hr : (Provider.createEndpoint c s mgr now e).res with
    | error err => rfl
    | ok _ => rw [ih]

/-- The update loop is seqRun over update items. -/
theorem processUpdates_eq {σ : Type} (c : Client σ) (now : Int)
    (l : List (Endpoint × Endpoint)) :
    ∀ (s : σ) (mgr : Manager),
    Provider.processUpdates c s mgr now l =
      seqRun c s mgr now (l.map fun p => ChangeItem.update p.1 p.2) := by
  induction l with
  | nil => intro s mgr; rfl
  | cons p rest ih =>
    intro s mgr
    simp only [List.map_cons, Provider.processUpdates, seqRun, Provider.runItem]
    cases hr : (Provider.updateEndpoint c s mgr now p.1 p.2).res with
    | error err => rfl
    | ok _ => rw [ih]

/-- The delete loop is seqRun over delete items. -/
theorem processDeletes_eq {σ : Type} (c : Client σ) (now : Int) (l : List Endpoint) :
    ∀ (s : σ) (mgr : Manager),
    Provider.processDeletes c s mgr now l = seqRun c s mgr now (l.map ChangeItem.del) := by
  induction l with
  | nil => intro s mgr; rfl
  | cons e rest ih =>
    intro s mgr
    simp only [List.map_cons, Provider.processDeletes, seqRun, Provider.runItem]
    cases hr : (Provider.deleteEndpoint c s mgr now e).res with
    | error err => rfl
    | ok _ => rw [ih]

/-- C9: ApplyChanges equals one sequential early-exit pass over the batch
in the order creates, update pairs, deletes; and that pass never attempts
an item after a failing one: an error inside a list is unaffected by
whatever items follow. -/
theorem applyChanges_order {σ : Type} (c : Client σ) (s : σ) (mgr : Manager) (now : Int)
    (ch : Changes) :
    Provider.ApplyChanges c s mgr now ch = seqRun c s mgr now (orderedItems ch) ∧
    ∀ (l1 l2 : List ChangeItem) (err : String),
      (seqRun c s mgr now l1).res = .error err →
      seqRun c s mgr now (l1 ++ l2) = seqRun c s mgr now l1 := by
  constructor
  · unfold Provider.ApplyChanges orderedItems
    rw [seqRun_append, seqRun_append, processCreates_eq]
    cases h1 : (seqRun c s mgr now (List.map ChangeItem.create ch.Create)).res with
    | error err => simp only [h1]
    | ok u =>
      simp only [h1]
      rw [processUpdates_eq]
      cases h2 : (seqRun c (seqRun c s mgr now (List.map ChangeItem.create ch.Create)).rem
          (seqRun c s mgr now (List.map ChangeItem.create ch.Create)).mgr now
          (List.map (fun p => ChangeItem.update p.1 p.2) (ch.UpdateOld.zip ch.UpdateNew))).res with
      | error err => simp only [h2]
      | ok u2 =>
        simp only [h2]
        rw [processDeletes_eq]
        simp [List.append_assoc]
  · intro l1 l2 err herr
    rw [seqRun_append]
    rcases hx : seqRun c s mgr now l1 with ⟨res, rem2, mgr2, tr⟩
    rw [hx] at herr
    have hres : res = .error err := herr
    subst hres
    rfl

/-- Witness for C9: a batch whose first create fails on a malformed weight
annotation stops there; the item after it is never attempted. -/
theorem applyChanges_order_witness :
    (Provider.ApplyChanges okClient () (Manager.New 300) 0
        ⟨[c1Endpoint], [], [], [c1Endpoint]⟩ =
      seqRun okClient () (Manager.New 300) 0
        (orderedItems ⟨[c1Endpoint], [], [], [c1Endpoint]⟩)) ∧
    seqRun okClient () (Manager.New 300) 0
        ([ChangeItem.create ⟨"bad.example.com", [], "A", "", 300,
            [(AnnotationEnabled, "true"), (AnnotationResourceGroup, "rg"),
              (AnnotationWeight, "zzz")], []⟩] ++ [ChangeItem.del c1Endpoint]) =
      seqRun okClient () (Manager.New 300) 0
        [ChangeItem.create ⟨"bad.example.com", [], "A", "", 300,
          [(AnnotationEnabled, "true"), (AnnotationResourceGroup, "rg"),
            (AnnotationWeight, "zzz")], []⟩] := by
  have h := applyChanges_order okClient () (Manager.New 300) 0
    ⟨[c1Endpoint], [], [], [c1Endpoint]⟩
  refine ⟨h.1, ?_⟩
  exact h.2 _ _ ("failed to parse annotations: invalid weight value \"zzz\"" ++
    ": strconv.ParseInt: parsing \"zzz\": invalid syntax") (by decide)

/-- Name resolution for updates touches only ProfileName and EndpointName. -/
theorem resolveUpdateNames_preserves (n0 : TMConfig) (e : Endpoint) :
    (resolveUpdateNames n0 e).RoutingMethod = n0.RoutingMethod ∧
    (resolveUpdateNames n0 e).DNSTTL = n0.DNSTTL ∧
    (resolveUpdateNames n0 e).MonitorProtocol = n0.MonitorProtocol ∧
    (resolveUpdateNames n0 e).MonitorPort = n0.MonitorPort ∧
    (resolveUpdateNames n0 e).MonitorPath = n0.MonitorPath ∧
    (resolveUpdateNames n0 e).HealthChecksEnabled = n0.HealthChecksEnabled ∧
    (resolveUpdateNames n0 e).Weight = n0.Weight ∧
    (resolveUpdateNames n0 e).EndpointStatus = n0.EndpointStatus ∧
    (resolveUpdateNames n0 e).ResourceGroup = n0.ResourceGroup := by
  unfold resolveUpdateNames
  by_cases h1 : n0.ProfileName = "" <;> simp only [h1, if_true, if_false] <;>
    split <;> exact ⟨rfl, rfl, rfl, rfl, rfl, rfl, rfl, rfl, rfl⟩

/-- The per-target update loop issues no profile update. -/
theorem updateTargets_no_profile_writes {σ : Type} (c : Client σ) (now : Int)
    (oc : Option TMConfig) (nc : TMConfig) (dns : String) (targets : List String) :
    ∀ (s : σ) (mgr : Manager),
    countUpdateProfile (Provider.updateTargets c s mgr now oc nc dns targets).trace = 0 := by
  induction targets with
  | nil =>
    intro s mgr
    rcases oc with _ | o <;> rfl
  | cons t rest ih =>
    intro s mgr
    rcases oc with _ | o
    · exact ih s mgr
    · simp only [Provider.updateTargets]
      split
      · rcases hcall : c.UpdateEndpoint s nc.ResourceGroup nc.ProfileName
            (nc.ToEndpointConfig t) with ⟨res, s1⟩
        rcases res with msg | eps
        · simp [hcall, countUpdateProfile, Event.isUpdateProfile]
        · simp only [hcall]
          simpa [countUpdateProfile, List.countP_cons, Event.isUpdateProfile] using ih s1 _
      · exact ih s mgr

/-- The update refresh issues neither profile nor endpoint updates. -/
theorem updateRefresh_counts {σ : Type} (c : Client σ) (s : σ) (mgr : Manager) (now : Int)
    (nc : TMConfig) (dns : String) :
    countUpdateProfile (Provider.updateRefresh c s mgr now nc dns).trace = 0 ∧
    countUpdateEp (Provider.updateRefresh c s mgr now nc dns).trace = 0 := by
  unfold Provider.updateRefresh
  rcases hcall : c.GetProfileState s nc.ResourceGroup nc.ProfileName with ⟨res, s1⟩
  rcases res with msg | ps <;> simp [countUpdateProfile, countUpdateEp,
    Event.isUpdateProfile, Event.isUpdateEp]

/-- The update tail: no profile updates, and its endpoint updates are
exactly those of the per-target loop. -/
theorem updateTail_counts {σ : Type} (c : Client σ) (s : σ) (mgr : Manager) (now : Int)
    (oc : Option TMConfig) (nc : TMConfig) (dns : String) (targets : List String) :
    countUpdateProfile (Provider.updateTail c s mgr now oc nc dns targets).trace = 0 ∧
    countUpdateEp (Provider.updateTail c s mgr now oc nc dns targets).trace =
      countUpdateEp (Provider.updateTargets c s mgr now oc nc dns targets).trace := by
  unfold Provider.updateTail
  cases hr : (Provider.updateTargets c s mgr now oc nc dns targets).res with
  | error err =>
    simp only [hr]
    exact ⟨updateTargets_no_profile_writes c now oc nc dns targets s mgr, trivial⟩
  | ok u =>
    simp only [hr]
    constructor
    · simp only [countUpdateProfile, List.countP_append]
      have h1 := updateTargets_no_profile_writes c now oc nc dns targets s mgr
      have h2 := (updateRefresh_counts c (Provider.updateTargets c s mgr now oc nc dns targets).rem
        (Provider.updateTargets c s mgr now oc nc dns targets).mgr now nc dns).1
      simp only [countUpdateProfile] at h1 h2
      omega
    · simp only [countUpdateEp, List.countP_append]
      have h2 := (updateRefresh_counts c (Provider.updateTargets c s mgr now oc nc dns targets).rem
        (Provider.updateTargets c s mgr now oc nc dns targets).mgr now nc dns).2
      simp only [countUpdateEp] at h2
      omega

/-- C4: when the old and new parsed configs agree on every profile-level
field (routing method, DNS TTL, monitor protocol, port, path,
health-checks flag), Update issues no remote profile update; and for a
single-target Update in which only the weight differs, exactly one remote
endpoint update is issued. -/
theorem update_redundant_write_avoidance {σ : Type} (c : Client σ) (s : σ) (mgr : Manager)
    (now : Int) (oldE newE : Endpoint) (o n0 : TMConfig) (t : String)
    (hnew : ParseConfig newE.Labels = .ok n0)
    (hen : n0.Enabled = true)
    (hval : ValidateConfig n0 = none)
    (hold : ParseConfig oldE.Labels = .ok o)
    (hrm : o.RoutingMethod = n0.RoutingMethod) (httl : o.DNSTTL = n0.DNSTTL)
    (hmp : o.MonitorProtocol = n0.MonitorProtocol) (hport : o.MonitorPort = n0.MonitorPort)
    (hpath : o.MonitorPath = n0.MonitorPath)
    (hhc : o.HealthChecksEnabled = n0.HealthChecksEnabled) :
    countUpdateProfile (Provider.updateEndpoint c s mgr now oldE newE).trace = 0 ∧
    (newE.Targets = [t] → o.Weight ≠ n0.Weight → o.EndpointStatus = n0.EndpointStatus →
      countUpdateEp (Provider.updateEndpoint c s mgr now oldE newE).trace = 1) := by
  obtain ⟨p1, p2, p3, p4, p5, p6, p7, p8, p9⟩ := resolveUpdateNames_preserves n0 newE
  have hnd : ¬ profileFieldsDiffer o (resolveUpdateNames n0 newE) := by
    unfold profileFieldsDiffer
    push_neg
    exact ⟨by rw [p1, hrm], by rw [p2, httl], by rw [p3, hmp], by rw [p4, hport],
      by rw [p5, hpath], by rw [p6, hhc]⟩
  have hrun : Provider.updateEndpoint c s mgr now oldE newE =
      Provider.updateTail c s mgr now (some o) (resolveUpdateNames n0 newE)
        newE.DNSName newE.Targets := by
    unfold Provider.updateEndpoint
    simp only [hnew]
    rw [if_neg (by simp [hen])]
    simp only [hval, hold, Except.toOption, hnd, decide_eq_false, if_neg]
    simp
  rw [hrun]
  refine ⟨(updateTail_counts c s mgr now (some o) (resolveUpdateNames n0 newE)
    newE.DNSName newE.Targets).1, ?_⟩
  intro hT hW hS
  rw [(updateTail_counts c s mgr now (some o) (resolveUpdateNames n0 newE)
    newE.DNSName newE.Targets).2, hT]
  have hcond : o.Weight ≠ (resolveUpdateNames n0 newE).Weight ∨
      o.EndpointStatus ≠ (resolveUpdateNames n0 newE).EndpointStatus := by
    left
    rw [p7]
    exact hW
  simp only [Provider.updateTargets]
  rw [if_pos hcond]
  rcases hcall : c.UpdateEndpoint s (resolveUpdateNames n0 newE).ResourceGroup
      (resolveUpdateNames n0 newE).ProfileName
      ((resolveUpdateNames n0 newE).ToEndpointConfig t) with ⟨res, s1⟩
  rcases res with msg | eps <;>
    simp [hcall, countUpdateEp, Provider.updateTargets, List.countP_cons, Event.isUpdateEp]

/-- Witness for C4: the concrete weight-only update issues zero profile
updates and exactly one endpoint update. -/
theorem update_redundant_write_avoidance_witness :
    countUpdateProfile (Provider.updateEndpoint okClient () (Manager.New 300) 0 c4old c4new).trace = 0 ∧
    countUpdateEp (Provider.updateEndpoint okClient () (Manager.New 300) 0 c4old c4new).trace = 1 := by
  have h := update_redundant_write_avoidance okClient () (Manager.New 300) 0 c4old c4new
    { defaultTMConfig with
      Enabled := true, ResourceGroup := "my-rg", EndpointLocation := "East US", Weight := 200 }
    { defaultTMConfig with
      Enabled := true, ResourceGroup := "my-rg", EndpointLocation := "East US", Weight := 300 }
    "1.2.3.4" (by decide) (by decide) (by decide) (by decide) (by decide) (by decide)
    (by decide) (by decide) (by decide) (by decide)
  exact ⟨h.1, h.2 (by decide) (by decide) (by decide)⟩

/-- The create loop stores no ProfileState. -/
theorem createTargets_no_profile_keys {σ : Type} (c : Client σ) (now : Int)
    (cfg : TMConfig) (vanity : String) (multi : Bool) (targets : List String) :
    ∀ (i : Nat) (s : σ) (mgr : Manager),
    profileWriteKeys (Provider.createTargets c s mgr now cfg vanity multi targets i).trace = [] := by
  induction targets with
  | nil => intro i s mgr; rfl
  | cons t rest ih =>
    intro i s mgr
    simp only [Provider.createTargets]
    split
    · rfl
    · next eps s1 heq =>
      simp only [profileWriteKeys, List.filterMap_cons]
      exact ih (i + 1) s1 _

/-- Every ProfileState stored by the create refresh is keyed by the vanity
hostname. -/
theorem createRefresh_profile_keys {σ : Type} (c : Client σ) (s : σ) (mgr : Manager)
    (now : Int) (cfg : TMConfig) (vanity dnsName k : String)
    (hk : k ∈ profileWriteKeys (Provider.createRefresh c s mgr now cfg vanity dnsName).trace) :
    k = vanity := by
  unfold Provider.createRefresh at hk
  rcases hcall : c.GetProfileState s cfg.ResourceGroup cfg.ProfileName with ⟨res, s1⟩
  simp only [hcall] at hk
  rcases res with msg | ps
  · simp [profileWriteKeys] at hk
  · simp only at hk
    split at hk
    · simp [profileWriteKeys] at hk
      exact hk
    · simp [profileWriteKeys] at hk
      exact hk

/-- profileWriteKeys distributes over trace concatenation. -/
theorem profileWriteKeys_append (a b : List Event) :
    profileWriteKeys (a ++ b) = profileWriteKeys a ++ profileWriteKeys b :=
  List.filterMap_append a b _

/-- profileDeleteKeys distributes over trace concatenation. -/
theorem profileDeleteKeys_append (a b : List Event) :
    profileDeleteKeys (a ++ b) = profileDeleteKeys a ++ profileDeleteKeys b :=
  List.filterMap_append a b _

/-- The endpoint-creation phase stores ProfileStates only under the vanity
hostname. -/
theorem createEndpointsPhase_profile_keys {σ : Type} (c : Client σ) (s : σ) (mgr : Manager)
    (now : Int) (e : Endpoint) (cfg : TMConfig) (vanity k : String)
    (hk : k ∈ profileWriteKeys (Provider.createEndpointsPhase c s mgr now e cfg vanity).trace) :
    k = vanity := by
  unfold Provider.createEndpointsPhase at hk
  split at hk <;>
  [skip; skip] <;>
  · dsimp only at hk
    split at hk
    · simp only at hk
      rw [createTargets_no_profile_keys] at hk
      simp at hk
    · simp only [profileWriteKeys_append] at hk
      rcases List.mem_append.mp hk with h1 | h2
      · rw [createTargets_no_profile_keys] at h1
        simp at h1
      · exact createRefresh_profile_keys c _ _ now cfg vanity e.DNSName k h2

/-- Every ProfileState stored by createEndpoint is keyed by the vanity
hostname (the hostname annotation, else the endpoint's DNS name). -/
theorem createEndpoint_profile_keys {σ : Type} (c : Client σ) (s : σ) (mgr : Manager)
    (now : Int) (e : Endpoint) (k : String)
    (hk : k ∈ profileWriteKeys (Provider.createEndpoint c s mgr now e).trace) :
    k = createVanity e := by
  unfold Provider.createEndpoint at hk
  split at hk
  · simp [profileWriteKeys] at hk
  · rcases hparse : ParseConfig e.annotationMap with msg | cfg0 <;>
      simp only [hparse] at hk
    · simp [profileWriteKeys] at hk
    · simp only [createVanity, hparse]
      split at hk
      · simp [profileWriteKeys] at hk
      · split at hk
        · simp [profileWriteKeys] at hk
        · split at hk
          · next p s1 heq =>
            simp only [profileWriteKeys, List.filterMap_cons] at hk
            exact createEndpointsPhase_profile_keys c s1 mgr now e _ _ k hk
          · next err s1 heq =>
            split at hk
            · next gerr s2 heq2 => simp [profileWriteKeys] at hk
            · next p s2 heq2 =>
              simp only [profileWriteKeys, List.filterMap_cons] at hk
              exact createEndpointsPhase_profile_keys c s2 mgr now e _ _ k hk

/-- The per-target update loop stores no ProfileState. -/
theorem updateTargets_no_profile_keys {σ : Type} (c : Client σ) (now : Int)
    (oc : Option TMConfig) (nc : TMConfig) (dns : String) (targets : List String) :
    ∀ (s : σ) (mgr : Manager),
    profileWriteKeys (Provider.updateTargets c s mgr now oc nc dns targets).trace = [] := by
  induction targets with
  | nil =>
    intro s mgr
    rcases oc with _ | o <;> rfl
  | cons t rest ih =>
    intro s mgr
    rcases oc with _ | o
    · exact ih s mgr
    · simp only [Provider.updateTargets]
      split
      · rcases hcall : c.UpdateEndpoint s nc.ResourceGroup nc.ProfileName
            (nc.ToEndpointConfig t) with ⟨res, s1⟩
        rcases res with msg | eps
        · simp [hcall, profileWriteKeys]
        · simp only [hcall]
          simpa [profileWriteKeys, List.filterMap_cons] using ih s1 _
      · exact ih s mgr

/-- The update refresh stores ProfileStates only under the new endpoint's
DNS name. -/
theorem updateRefresh_profile_keys {σ : Type} (c : Client σ) (s : σ) (mgr : Manager)
    (now : Int) (nc : TMConfig) (dns k : String)
    (hk : k ∈ profileWriteKeys (Provider.updateRefresh c s mgr now nc dns).trace) :
    k = dns := by
  unfold Provider.updateRefresh at hk
  rcases hcall : c.GetProfileState s nc.ResourceGroup nc.ProfileName with ⟨res, s1⟩
  simp only [hcall] at hk
  rcases res with msg | ps
  · simp [profileWriteKeys] at hk
  · simp [profileWriteKeys] at hk
    exact hk

/-- The update tail stores ProfileStates only under the DNS name. -/
theorem updateTail_profile_keys {σ : Type} (c : Client σ) (s : σ) (mgr : Manager)
    (now : Int) (oc : Option TMConfig) (nc : TMConfig) (dns : String)
    (targets : List String) (k : String)
    (hk : k ∈ profileWriteKeys (Provider.updateTail c s mgr now oc nc dns targets).trace) :
    k = dns := by
  unfold Provider.updateTail at hk
  dsimp only at hk
  split at hk
  · simp only at hk
    rw [updateTargets_no_profile_keys] at hk
    simp at hk
  · simp only [profileWriteKeys_append] at hk
    rcases List.mem_append.mp hk with h1 | h2
    · rw [updateTargets_no_profile_keys] at h1
      simp at h1
    · exact updateRefresh_profile_keys c _ _ now nc dns k h2

/-- Every ProfileState stored by updateEndpoint is keyed by the new
endpoint's DNS name (never by the hostname annotation). -/
theorem updateEndpoint_profile_keys {σ : Type} (c : Client σ) (s : σ) (mgr : Manager)
    (now : Int) (oldE newE : Endpoint) (k : String)
    (hk : k ∈ profileWriteKeys (Provider.updateEndpoint c s mgr now oldE newE).trace) :
    k = newE.DNSName := by
  unfold Provider.updateEndpoint at hk
  rcases hparse : ParseConfig newE.Labels with msg | n0 <;> simp only [hparse] at hk
  · simp [profileWriteKeys] at hk
  · split at hk
    · simp [profileWriteKeys] at hk
    · split at hk
      · simp [profileWriteKeys] at hk
      · split at hk
        · split at hk
          · simp [profileWriteKeys] at hk
          · simp only [profileWriteKeys, List.filterMap_cons] at hk
            exact updateTail_profile_keys c _ mgr now _ _ _ _ k hk
        · exact updateTail_profile_keys c _ mgr now _ _ _ _ k hk

/-- The per-target delete loop neither stores nor removes ProfileStates. -/
theorem deleteTargets_no_profile_keys {σ : Type} (c : Client σ) (now : Int)
    (cfg : TMConfig) (dns : String) (targets : List String) :
    ∀ (s : σ) (mgr : Manager),
    profileWriteKeys (Provider.deleteTargets c s mgr now cfg dns targets).trace = [] ∧
    profileDeleteKeys (Provider.deleteTargets c s mgr now cfg dns targets).trace = [] := by
  induction targets with
  | nil =>
    intro s mgr
    exact ⟨rfl, rfl⟩
  | cons t rest ih =>
    intro s mgr
    simp only [Provider.deleteTargets]
    rcases hcall : c.DeleteEndpoint s cfg.ResourceGroup cfg.ProfileName cfg.EndpointType
        cfg.EndpointName with ⟨res, s1⟩
    rcases res with msg | u
    · constructor
      · simpa [profileWriteKeys, List.filterMap_cons] using (ih s1 mgr).1
      · simpa [profileDeleteKeys, List.filterMap_cons] using (ih s1 mgr).2
    · constructor
      · simpa [profileWriteKeys, List.filterMap_cons] using (ih s1 _).1
      · simpa [profileDeleteKeys, List.filterMap_cons] using (ih s1 _).2

/-- The delete finish phase stores or removes ProfileStates only under the
vanity hostname. -/
theorem deleteFinish_profile_keys {σ : Type} (c : Client σ) (s : σ) (mgr : Manager)
    (now : Int) (cfg : TMConfig) (vanity dns k : String)
    (hk : k ∈ profileWriteKeys (Provider.deleteFinish c s mgr now cfg vanity dns).trace ∨
      k ∈ profileDeleteKeys (Provider.deleteFinish c s mgr now cfg vanity dns).trace) :
    k = vanity := by
  unfold Provider.deleteFinish at hk
  rcases hcall : c.GetProfileState s cfg.ResourceGroup cfg.ProfileName with ⟨res, s1⟩
  simp only [hcall] at hk
  rcases res with msg | ps
  · rcases hk with hk | hk <;> simp [profileWriteKeys, profileDeleteKeys] at hk
  · dsimp only at hk
    split at hk
    · rcases hdel : c.DeleteProfile s1 cfg.ResourceGroup cfg.ProfileName with ⟨res2, s2⟩
      simp only [hdel] at hk
      rcases res2 with msg2 | u
      · rcases hk with hk | hk <;> simp [profileWriteKeys, profileDeleteKeys] at hk
      · dsimp only at hk
        split at hk
        · rcases hk with hk | hk <;>
            simp [profileWriteKeys, profileDeleteKeys] at hk
          exact hk
        · rcases hk with hk | hk <;>
            simp [profileWriteKeys, profileDeleteKeys] at hk
          exact hk
    · rcases hk with hk | hk <;> simp [profileWriteKeys, profileDeleteKeys] at hk
      exact hk

/-- Every ProfileState stored or removed by deleteEndpoint is keyed by the
vanity hostname. -/
theorem deleteEndpoint_profile_keys {σ : Type} (c : Client σ) (s : σ) (mgr : Manager)
    (now : Int) (e : Endpoint) (k : String)
    (hk : k ∈ profileWriteKeys (Provider.deleteEndpoint c s mgr now e).trace ∨
      k ∈ profileDeleteKeys (Provider.deleteEndpoint c s mgr now e).trace) :
    k = deleteVanity e := by
  unfold Provider.deleteEndpoint at hk
  rcases hparse : ParseConfig e.Labels with msg | cfg0 <;> simp only [hparse] at hk
  · rcases hk with hk | hk <;> simp [profileWriteKeys, profileDeleteKeys] at hk
  · simp only [deleteVanity, hparse]
    split at hk
    · rcases hk with hk | hk <;> simp [profileWriteKeys, profileDeleteKeys] at hk
    · dsimp only at hk
      simp only [profileWriteKeys_append, profileDeleteKeys_append] at hk
      rcases hk with hk | hk
      · rcases List.mem_append.mp hk with h1 | h2
        · rw [(deleteTargets_no_profile_keys c now _ e.DNSName e.Targets s mgr).1] at h1
          simp at h1
        · exact deleteFinish_profile_keys c _ _ now _ _ e.DNSName k (.inl h2)
      · rcases List.mem_append.mp hk with h1 | h2
        · rw [(deleteTargets_no_profile_keys c now _ e.DNSName e.Targets s mgr).2] at h1
          simp at h1
        · exact deleteFinish_profile_keys c _ _ now _ _ e.DNSName k (.inr h2)

/-- Counterexample to C2 as stated: an Update whose hostname annotation is
set ("vanity.example.com", distinct from the DNS name) stores its
ProfileState keyed by the DNS name, and no entry exists under the vanity
hostname. -/
theorem update_vanity_key_counterexample :
    lookupLabel c2e.Labels AnnotationHostname = some "vanity.example.com" ∧
    "vanity.example.com" ≠ c2e.DNSName ∧
    profileWriteKeys (Provider.updateEndpoint okClient () (Manager.New 300) 7 c2e c2e).trace =
      ["svc.example.com"] ∧
    lookupA (Provider.updateEndpoint okClient () (Manager.New 300) 7 c2e c2e).mgr.profiles
      "vanity.example.com" = none ∧
    (lookupA (Provider.updateEndpoint okClient () (Manager.New 300) 7 c2e c2e).mgr.profiles
      "svc.example.com").isSome = true := by
  refine ⟨by decide, by decide, by decide, by decide, by decide⟩

/-- C2 amended: Create and Delete key the stored (or removed) ProfileState
by the vanity hostname — the hostname annotation when present, else the
endpoint's DNS name — but Update keys its ProfileState writes by the new
endpoint's DNS name unconditionally, ignoring the hostname annotation. -/
theorem mirror_profile_write_keys {σ : Type} (c : Client σ) (s : σ) (mgr : Manager)
    (now : Int) (e oldE newE : Endpoint) (k : String) :
    (k ∈ profileWriteKeys (Provider.createEndpoint c s mgr now e).trace → k = createVanity e) ∧
    ((k ∈ profileWriteKeys (Provider.deleteEndpoint c s mgr now e).trace ∨
      k ∈ profileDeleteKeys (Provider.deleteEndpoint c s mgr now e).trace) →
        k = deleteVanity e) ∧
    (k ∈ profileWriteKeys (Provider.updateEndpoint c s mgr now oldE newE).trace →
      k = newE.DNSName) :=
  ⟨createEndpoint_profile_keys c s mgr now e k,
    deleteEndpoint_profile_keys c s mgr now e k,
    updateEndpoint_profile_keys c s mgr now oldE newE k⟩

/-- Witness for the amended C2: on the concrete endpoint, Create stores
under the vanity hostname while Update stores under the DNS name. -/
theorem mirror_profile_write_keys_witness :
    "vanity.example.com" = createVanity c2e ∧ "svc.example.com" = c2e.DNSName :=
  ⟨(mirror_profile_write_keys okClient () (Manager.New 300) 7 c2e c2e c2e
      "vanity.example.com").1 (by decide),
    (mirror_profile_write_keys okClient () (Manager.New 300) 7 c2e c2e c2e
      "svc.example.com").2.2 (by decide)⟩

/-- Removing a key then looking it up finds nothing. -/
theorem lookupA_removeAssoc_self {α : Type} (l : List (String × α)) (k : String) :
    lookupA (removeAssoc l k) k = none := by
  induction l with
  | nil => rfl
  | cons kv rest ih =>
    by_cases h : kv.1 = k
    · simp [removeAssoc, h, ih]
    · simp [removeAssoc, h, lookupA, ih]

/-- The per-target delete loop issues no remote profile delete. -/
theorem deleteTargets_no_profile_deletes {σ : Type} (c : Client σ) (now : Int)
    (cfg : TMConfig) (dns : String) (targets : List String) :
    ∀ (s : σ) (mgr : Manager),
    (Provider.deleteTargets c s mgr now cfg dns targets).trace.countP Event.isDeleteProfile = 0 := by
  induction targets with
  | nil => intro s mgr; rfl
  | cons t rest ih =>
    intro s mgr
    simp only [Provider.deleteTargets]
    rcases hcall : c.DeleteEndpoint s cfg.ResourceGroup cfg.ProfileName cfg.EndpointType
        cfg.EndpointName with ⟨res, s1⟩
    rcases res with msg | u
    · simpa [List.countP_cons, Event.isDeleteProfile] using ih s1 mgr
    · simpa [List.countP_cons, Event.isDeleteProfile] using ih s1 _

/-- C5: after the per-target deletes, a re-fetched profile with zero
endpoints makes the engine issue a remote profile delete and, when that
delete succeeds, remove the vanity-hostname cache entry; a re-fetched
profile that still has endpoints is never deleted and the cache entry is
refreshed under the vanity hostname instead.  Moreover the concrete Create
then Delete of the only endpoint of a profile, run against the operational
fake remote, ends with no remote profile and no cache entry. -/
theorem delete_empty_profile_cleanup {σ : Type} (c : Client σ) (s : σ) (mgr : Manager)
    (now : Int) (e : Endpoint) (cfg0 cfg : TMConfig) (vanity : String)
    (hparse : ParseConfig e.Labels = .ok cfg0)
    (hen : cfg0.Enabled = true)
    (hv : vanity = resolveVanity cfg0 e)
    (hc : cfg = resolveDeleteNames cfg0 e) :
    (∀ ps s2,
      c.GetProfileState (Provider.deleteTargets c s mgr now cfg e.DNSName e.Targets).rem
          cfg.ResourceGroup cfg.ProfileName = (.ok ps, s2) →
      (ps.Endpoints = [] →
        Event.deleteProfile cfg.ResourceGroup cfg.ProfileName ∈
          (Provider.deleteEndpoint c s mgr now e).trace ∧
        (∀ s3, c.DeleteProfile s2 cfg.ResourceGroup cfg.ProfileName = (.ok (), s3) →
          lookupA (Provider.deleteEndpoint c s mgr now e).mgr.profiles vanity = none)) ∧
      (ps.Endpoints ≠ [] →
        (Provider.deleteEndpoint c s mgr now e).trace.countP Event.isDeleteProfile = 0 ∧
        lookupA (Provider.deleteEndpoint c s mgr now e).mgr.profiles vanity =
          some { ps with Hostname := vanity, CachedAt := now })) ∧
    ((Provider.deleteEndpoint fakeClient
        (Provider.createEndpoint fakeClient ⟨[]⟩ (Manager.New 300) 1 c1Endpoint).rem
        (Provider.createEndpoint fakeClient ⟨[]⟩ (Manager.New 300) 1 c1Endpoint).mgr
        2 c1Endpoint).rem.profiles = [] ∧
      lookupA (Provider.deleteEndpoint fakeClient
        (Provider.createEndpoint fakeClient ⟨[]⟩ (Manager.New 300) 1 c1Endpoint).rem
        (Provider.createEndpoint fakeClient ⟨[]⟩ (Manager.New 300) 1 c1Endpoint).mgr
        2 c1Endpoint).mgr.profiles "app.example.com" = none) := by
  subst hv
  subst hc
  have hrun : Provider.deleteEndpoint c s mgr now e =
      ⟨.ok (),
        (Provider.deleteFinish c
          (Provider.deleteTargets c s mgr now (resolveDeleteNames cfg0 e) e.DNSName e.Targets).rem
          (Provider.deleteTargets c s mgr now (resolveDeleteNames cfg0 e) e.DNSName e.Targets).mgr
          now (resolveDeleteNames cfg0 e) (resolveVanity cfg0 e) e.DNSName).rem,
        (Provider.deleteFinish c
          (Provider.deleteTargets c s mgr now (resolveDeleteNames cfg0 e) e.DNSName e.Targets).rem
          (Provider.deleteTargets c s mgr now (resolveDeleteNames cfg0 e) e.DNSName e.Targets).mgr
          now (resolveDeleteNames cfg0 e) (resolveVanity cfg0 e) e.DNSName).mgr,
        (Provider.deleteTargets c s mgr now (resolveDeleteNames cfg0 e) e.DNSName e.Targets).trace ++
        (Provider.deleteFinish c
          (Provider.deleteTargets c s mgr now (resolveDeleteNames cfg0 e) e.DNSName e.Targets).rem
          (Provider.deleteTargets c s mgr now (resolveDeleteNames cfg0 e) e.DNSName e.Targets).mgr
          now (resolveDeleteNames cfg0 e) (resolveVanity cfg0 e) e.DNSName).trace⟩ := by
    unfold Provider.deleteEndpoint
    simp only [hparse]
    rw [if_neg (by simp [hen])]
  refine ⟨?_, by decide, by decide⟩
  intro ps s2 hGPS
  rw [hrun]
  have hfin : Provider.deleteFinish c
      (Provider.deleteTargets c s mgr now (resolveDeleteNames cfg0 e) e.DNSName e.Targets).rem
      (Provider.deleteTargets c s mgr now (resolveDeleteNames cfg0 e) e.DNSName e.Targets).mgr
      now (resolveDeleteNames cfg0 e) (resolveVanity cfg0 e) e.DNSName =
      (if ps.Endpoints.length = 0 then
        match c.DeleteProfile s2 (resolveDeleteNames cfg0 e).ResourceGroup
            (resolveDeleteNames cfg0 e).ProfileName with
        | (.error _, s3) =>
          ⟨.ok (), s3,
            (Provider.deleteTargets c s mgr now (resolveDeleteNames cfg0 e) e.DNSName e.Targets).mgr,
            [.getProfileState (resolveDeleteNames cfg0 e).ResourceGroup
                (resolveDeleteNames cfg0 e).ProfileName,
              .deleteProfile (resolveDeleteNames cfg0 e).ResourceGroup
                (resolveDeleteNames cfg0 e).ProfileName]⟩
        | (.ok _, s3) =>
          let mgr1 := (Provider.deleteTargets c s mgr now (resolveDeleteNames cfg0 e)
            e.DNSName e.Targets).mgr.DeleteProfile (resolveVanity cfg0 e)
          if resolveVanity cfg0 e ≠ "" ∧ resolveVanity cfg0 e ≠ e.DNSName then
            match c.CnameDelete s3 (dnsEndpointGenerateName (resolveVanity cfg0 e)) with
            | (_, s4) =>
              ⟨.ok (), s4, mgr1,
                [.getProfileState (resolveDeleteNames cfg0 e).ResourceGroup
                    (resolveDeleteNames cfg0 e).ProfileName,
                  .deleteProfile (resolveDeleteNames cfg0 e).ResourceGroup
                    (resolveDeleteNames cfg0 e).ProfileName,
                  .mirrorDeleteProfile (resolveVanity cfg0 e),
                  .cnameDelete (dnsEndpointGenerateName (resolveVanity cfg0 e))]⟩
          else
            ⟨.ok (), s3, mgr1,
              [.getProfileState (resolveDeleteNames cfg0 e).ResourceGroup
                  (resolveDeleteNames cfg0 e).ProfileName,
                .deleteProfile (resolveDeleteNames cfg0 e).ResourceGroup
                  (resolveDeleteNames cfg0 e).ProfileName,
                .mirrorDeleteProfile (resolveVanity cfg0 e)]⟩
      else
        ⟨.ok (), s2,
          (Provider.deleteTargets c s mgr now (resolveDeleteNames cfg0 e) e.DNSName
            e.Targets).mgr.SetProfile now (resolveVanity cfg0 e) { ps with Hostname := resolveVanity cfg0 e },
          [.getProfileState (resolveDeleteNames cfg0 e).ResourceGroup
              (resolveDeleteNames cfg0 e).ProfileName,
            .mirrorSetProfile (resolveVanity cfg0 e)]⟩) := by
    unfold Provider.deleteFinish
    simp only [hGPS]
  constructor
  · intro hempty
    rw [hfin, if_pos (by simp [hempty])]
    constructor
    · rcases hdel : c.DeleteProfile s2 (resolveDeleteNames cfg0 e).ResourceGroup
          (resolveDeleteNames cfg0 e).ProfileName with ⟨res3, s3⟩
      simp only [hdel]
      rcases res3 with msg3 | u3
      · simp
      · by_cases hvan : resolveVanity cfg0 e ≠ "" ∧ resolveVanity cfg0 e ≠ e.DNSName
        · rcases hcd : c.CnameDelete s3
              (dnsEndpointGenerateName (resolveVanity cfg0 e)) with ⟨r4, s5⟩
          simp [hvan, hcd]
        · simp [hvan]
    · intro s4 hok
      simp only [hok]
      by_cases hvan : resolveVanity cfg0 e ≠ "" ∧ resolveVanity cfg0 e ≠ e.DNSName
      · rcases hcd : c.CnameDelete s4
            (dnsEndpointGenerateName (resolveVanity cfg0 e)) with ⟨r4, s5⟩
        simp [hvan, hcd, Manager.DeleteProfile, lookupA_removeAssoc_self]
      · simp [hvan, Manager.DeleteProfile, lookupA_removeAssoc_self]
  · intro hne
    rw [hfin, if_neg (by simpa using hne)]
    constructor
    · simp only [List.countP_append]
      have h1 := deleteTargets_no_profile_deletes c now (resolveDeleteNames cfg0 e)
        e.DNSName e.Targets s mgr
      simp [h1, List.countP_cons, Event.isDeleteProfile]
    · simp [Manager.SetProfile, lookupA_insertAssoc_self, ProfileState.clone_ident]

/-- Witness for C5: deleting the only endpoint of the fake profile issues
the remote profile delete and removes the cache entry. -/
theorem delete_empty_profile_cleanup_witness :
    Event.deleteProfile "my-rg" "app-example-com-tm" ∈
      (Provider.deleteEndpoint fakeClient fr0 (Manager.New 300) 2 c1Endpoint).trace ∧
    lookupA (Provider.deleteEndpoint fakeClient fr0 (Manager.New 300) 2 c1Endpoint).mgr.profiles
      "app.example.com" = none := by
  have h := delete_empty_profile_cleanup fakeClient fr0 (Manager.New 300) 2 c1Endpoint
    c1Config (resolveDeleteNames c1Config c1Endpoint) "app.example.com"
    (by decide) (by decide) (by decide) rfl
  have h2 := (h.1 (FakeProfile.toState ⟨"app-example-com-tm", "my-rg", []⟩)
    ⟨[(("my-rg", "app-example-com-tm"), ⟨"app-example-com-tm", "my-rg", []⟩)]⟩
    (by decide)).1 (by decide)
  exact ⟨h2.1, h2.2 ⟨[]⟩ (by decide)⟩

/-- Copying a pair entrywise is the identity. -/
theorem map_pair_eta (l : List (String × String)) : l.map (fun kv => (kv.1, kv.2)) = l := by
  simp

/-- readEndpoints consults only the endpoint store. -/
theorem readEndpoints_congr (H H2 : Heap) (l : List (String × Nat)) (h : H.eps = H2.eps) :
    H.readEndpoints l = H2.readEndpoints l := by
  induction l with
  | nil => rfl
  | cons kv rest ih =>
    cases kv
    simp [Heap.readEndpoints, Heap.readEp, h, ih]

/-- A successful readEndpoints bounds every endpoint reference. -/
theorem readEndpoints_some_bounds (H : Heap) (l : List (String × Nat))
    (xs : List (String × EndpointState)) (h : H.readEndpoints l = some xs) :
    ∀ kv ∈ l, kv.2 < H.eps.length := by
  induction l generalizing xs with
  | nil =>
    intro kv hkv
    cases hkv
  | cons kv0 rest ih =>
    intro kv hkv
    rcases kv0 with ⟨k0, a0⟩
    rcases he : H.readEp a0 with _ | es
    · simp only [Heap.readEndpoints, he] at h
      exact Option.noConfusion h
    · rcases hr : H.readEndpoints rest with _ | l2
      · simp only [Heap.readEndpoints, he, hr] at h
        exact Option.noConfusion h
      · rcases List.mem_cons.mp hkv with hkv2 | hkv2
        · subst hkv2
          exact (List.getElem?_eq_some_iff.mp he).1
        · exact ih l2 hr kv hkv2

/-- Profile reads survive heap extension. -/
theorem readProf_mono {H H2 : Heap} (hle : HeapLE H H2) {a : Nat} {po : HProfile}
    (h : H.readProf a = some po) : H2.readProf a = some po := by
  obtain ⟨t, ht⟩ := hle.profs
  unfold Heap.readProf at h ⊢
  rw [ht, List.getElem?_append_left (List.getElem?_eq_some_iff.mp h).1]
  exact h

/-- Endpoints-map reads survive heap extension. -/
theorem readEpMap_mono {H H2 : Heap} (hle : HeapLE H H2) {a : Nat} {em : List (String × Nat)}
    (h : H.readEpMap a = some em) : H2.readEpMap a = some em := by
  obtain ⟨t, ht⟩ := hle.epMaps
  unfold Heap.readEpMap at h ⊢
  rw [ht, List.getElem?_append_left (List.getElem?_eq_some_iff.mp h).1]
  exact h

/-- Tags-map reads survive heap extension. -/
theorem readTagMap_mono {H H2 : Heap} (hle : HeapLE H H2) {a : Nat}
    {tm : List (String × String)} (h : H.readTagMap a = some tm) :
    H2.readTagMap a = some tm := by
  obtain ⟨t, ht⟩ := hle.tagMaps
  unfold Heap.readTagMap at h ⊢
  rw [ht, List.getElem?_append_left (List.getElem?_eq_some_iff.mp h).1]
  exact h

/-- Endpoint reads survive heap extension. -/
theorem readEp_mono {H H2 : Heap} (hle : HeapLE H H2) {a : Nat} {es : EndpointState}
    (h : H.readEp a = some es) : H2.readEp a = some es := by
  obtain ⟨t, ht⟩ := hle.eps
  unfold Heap.readEp at h ⊢
  rw [ht, List.getElem?_append_left (List.getElem?_eq_some_iff.mp h).1]
  exact h

/-- Resolved endpoint maps survive heap extension. -/
theorem readEndpoints_mono {H H2 : Heap} (hle : HeapLE H H2) (l : List (String × Nat))
    {xs : List (String × EndpointState)} (h : H.readEndpoints l = some xs) :
    H2.readEndpoints l = some xs := by
  induction l generalizing xs with
  | nil =>
    simp only [Heap.readEndpoints] at h ⊢
    exact h
  | cons kv0 rest ih =>
    rcases kv0 with ⟨k0, a0⟩
    rcases he : H.readEp a0 with _ | es
    · simp only [Heap.readEndpoints, he] at h
      exact Option.noConfusion h
    · rcases hr : H.readEndpoints rest with _ | l2
      · simp only [Heap.readEndpoints, he, hr] at h
        exact Option.noConfusion h
      · simp only [Heap.readEndpoints, readEp_mono hle he, ih hr]
        simp only [Heap.readEndpoints, he, hr] at h
        exact h

/-- Deep reads survive heap extension. -/
theorem deepRead_mono {H H2 : Heap} (hle : HeapLE H H2) {a : Nat} {v : ProfileState}
    (h : H.deepRead a = some v) : H2.deepRead a = some v := by
  rcases hpo : H.readProf a with _ | po
  · simp only [Heap.deepRead, hpo] at h
    exact Option.noConfusion h
  · rcases hem : H.readEpMap po.Endpoints with _ | em
    · simp only [Heap.deepRead, hpo, hem] at h
      exact Option.noConfusion h
    · rcases htm : H.readTagMap po.Tags with _ | tm
      · simp only [Heap.deepRead, hpo, hem, htm] at h
        exact Option.noConfusion h
      · rcases hl : H.readEndpoints em with _ | l
        · simp only [Heap.deepRead, hpo, hem, htm, hl] at h
          exact Option.noConfusion h
        · simp only [Heap.deepRead, hpo, hem, htm, hl] at h
          simp only [Heap.deepRead, readProf_mono hle hpo, readEpMap_mono hle hem,
            readTagMap_mono hle htm, readEndpoints_mono hle em hl]
          exact h

/-- Specification of the endpoint-cloning loop: other stores untouched,
the endpoint store only grows, the returned map reads back to the cloned
value, and every returned reference is fresh. -/
theorem allocEps_spec (l : List (String × EndpointState)) : ∀ H : Heap,
    (Heap.allocEps H l).1.profs = H.profs ∧
    (Heap.allocEps H l).1.epMaps = H.epMaps ∧
    (Heap.allocEps H l).1.tagMaps = H.tagMaps ∧
    (∃ t, (Heap.allocEps H l).1.eps = H.eps ++ t) ∧
    (Heap.allocEps H l).1.readEndpoints (Heap.allocEps H l).2 = some l ∧
    ∀ kv ∈ (Heap.allocEps H l).2, H.eps.length ≤ kv.2 := by
  induction l with
  | nil =>
    intro H
    refine ⟨rfl, rfl, rfl, ⟨[], by simp [Heap.allocEps]⟩, rfl, ?_⟩
    intro kv hkv
    simp [Heap.allocEps] at hkv
  | cons kv0 rest ih =>
    intro H
    rcases kv0 with ⟨k0, es⟩
    obtain ⟨e1, e2, e3, ⟨t, e4⟩, e5, e6⟩ := ih { H with eps := H.eps ++ [es.clone] }
    refine ⟨e1, e2, e3, ⟨[es.clone] ++ t,
      by rw [Heap.allocEps]; dsimp only; rw [e4]; simp⟩, ?_, ?_⟩
    · rw [Heap.allocEps]
      dsimp only
      simp only [Heap.readEndpoints]
      have hread : (Heap.allocEps { H with eps := H.eps ++ [es.clone] } rest).1.readEp
          H.eps.length = some es := by
        unfold Heap.readEp
        rw [e4]
        rw [List.getElem?_append_left (by simp)]
        rw [List.getElem?_concat_length]
        rw [EndpointState.clone_id]
      rw [hread, e5]
    · rw [Heap.allocEps]
      dsimp only
      intro kv hkv
      rcases List.mem_cons.mp hkv with hkv2 | hkv2
      · subst hkv2
        exact Nat.le_refl _
      · have h6 := e6 kv hkv2
        simp at h6
        omega

/-- Specification of the clone allocator: the heap only grows, the new
address is the old profile-store length, the object's map references are
the old map-store lengths (hence fresh), its endpoint references are fresh,
and the new address deep-reads back to exactly the cloned value. -/
theorem allocProfileVal_spec (H : Heap) (v : ProfileState) :
    HeapLE H (H.allocProfileVal v).1 ∧
    (H.allocProfileVal v).2 = H.profs.length ∧
    (H.allocProfileVal v).1.readProf (H.allocProfileVal v).2 =
      some ⟨v.ProfileName, v.ResourceGroup, v.Hostname, v.FQDN, v.RoutingMethod, v.DNSTTL,
        v.CreatedAt, v.UpdatedAt, v.CachedAt, H.epMaps.length, H.tagMaps.length⟩ ∧
    (H.allocProfileVal v).1.readEpMap H.epMaps.length = some (H.allocEps v.Endpoints).2 ∧
    (H.allocProfileVal v).1.readTagMap H.tagMaps.length = some v.Tags ∧
    (H.allocProfileVal v).1.deepRead (H.allocProfileVal v).2 = some v ∧
    ∀ kv ∈ (H.allocEps v.Endpoints).2, H.eps.length ≤ kv.2 := by
  obtain ⟨e1, e2, e3, ⟨t, e4⟩, e5, e6⟩ := allocEps_spec v.Endpoints H
  have hprofs : (H.allocProfileVal v).1.profs = H.profs ++
      [⟨v.ProfileName, v.ResourceGroup, v.Hostname, v.FQDN, v.RoutingMethod, v.DNSTTL,
        v.CreatedAt, v.UpdatedAt, v.CachedAt, H.epMaps.length, H.tagMaps.length⟩] := by
    simp only [Heap.allocProfileVal]
    rw [e1, e2, e3]
  have hepms : (H.allocProfileVal v).1.epMaps = H.epMaps ++ [(H.allocEps v.Endpoints).2] := by
    simp only [Heap.allocProfileVal]
    rw [e2]
  have htgms : (H.allocProfileVal v).1.tagMaps =
      H.tagMaps ++ [v.Tags.map fun kv => (kv.1, kv.2)] := by
    simp only [Heap.allocProfileVal]
    rw [e3]
  have heps : (H.allocProfileVal v).1.eps = H.eps ++ t := by
    simp only [Heap.allocProfileVal]
    exact e4
  have haddr : (H.allocProfileVal v).2 = H.profs.length := by
    simp only [Heap.allocProfileVal]
    rw [e1]
  have hle : HeapLE H (H.allocProfileVal v).1 :=
    ⟨⟨_, hprofs⟩, ⟨_, hepms⟩, ⟨_, htgms⟩, ⟨t, heps⟩⟩
  have hrp : (H.allocProfileVal v).1.readProf (H.allocProfileVal v).2 =
      some ⟨v.ProfileName, v.ResourceGroup, v.Hostname, v.FQDN, v.RoutingMethod, v.DNSTTL,
        v.CreatedAt, v.UpdatedAt, v.CachedAt, H.epMaps.length, H.tagMaps.length⟩ := by
    unfold Heap.readProf
    rw [hprofs, haddr, List.getElem?_concat_length]
  have hrem : (H.allocProfileVal v).1.readEpMap H.epMaps.length =
      some (H.allocEps v.Endpoints).2 := by
    unfold Heap.readEpMap
    rw [hepms, List.getElem?_concat_length]
  have hrtm : (H.allocProfileVal v).1.readTagMap H.tagMaps.length = some v.Tags := by
    unfold Heap.readTagMap
    rw [htgms, List.getElem?_concat_length, map_pair_eta]
  refine ⟨hle, haddr, hrp, hrem, hrtm, ?_, e6⟩
  have hre : (H.allocProfileVal v).1.readEndpoints (H.allocEps v.Endpoints).2 =
      some v.Endpoints := by
    rw [readEndpoints_congr (H.allocProfileVal v).1 (H.allocEps v.Endpoints).1
      (H.allocEps v.Endpoints).2 (by rw [heps, e4])]
    exact e5
  simp only [Heap.deepRead, hrp, hrem, hrtm, hre]

/-- Inverting a successful deep read: each component read succeeds and the
value is assembled from them. -/
theorem deepRead_inv (H : Heap) (a : Nat) (v : ProfileState) (po : HProfile)
    (hpo : H.readProf a = some po) (h : H.deepRead a = some v) :
    ∃ em tm l, H.readEpMap po.Endpoints = some em ∧ H.readTagMap po.Tags = some tm ∧
      H.readEndpoints em = some l ∧
      v = ⟨po.ProfileName, po.ResourceGroup, po.Hostname, po.FQDN, po.RoutingMethod,
        po.DNSTTL, l, tm, po.CreatedAt, po.UpdatedAt, po.CachedAt⟩ := by
  rcases hem : H.readEpMap po.Endpoints with _ | em
  · simp only [Heap.deepRead, hpo, hem] at h
    exact Option.noConfusion h
  · rcases htm : H.readTagMap po.Tags with _ | tm
    · simp only [Heap.deepRead, hpo, hem, htm] at h
      exact Option.noConfusion h
    · rcases hl : H.readEndpoints em with _ | l
      · simp only [Heap.deepRead, hpo, hem, htm, hl] at h
        exact Option.noConfusion h
      · simp only [Heap.deepRead, hpo, hem, htm, hl, Option.some.injEq] at h
        exact ⟨em, tm, l, rfl, rfl, hl, h.symm⟩

/-- Writing a different profile object leaves a deep read unchanged. -/
theorem deepRead_setProfObj_ne (H : Heap) (a b : Nat) (po2 : HProfile) (hne : b ≠ a) :
    (H.setProfObj b po2).deepRead a = H.deepRead a := by
  have h1 : (H.setProfObj b po2).readProf a = H.readProf a := by
    show (H.profs.set b po2)[a]? = H.profs[a]?
    exact List.getElem?_set_ne hne
  have h2 : ∀ x, (H.setProfObj b po2).readEpMap x = H.readEpMap x := fun _ => rfl
  have h3 : ∀ x, (H.setProfObj b po2).readTagMap x = H.readTagMap x := fun _ => rfl
  have h4 : ∀ l, (H.setProfObj b po2).readEndpoints l = H.readEndpoints l :=
    fun l => readEndpoints_congr _ _ l rfl
  unfold Heap.deepRead
  simp only [h1, h2, h3, h4]

/-- Writing an endpoint object nothing in the map refers to leaves the
resolved endpoint map unchanged. -/
theorem readEndpoints_setEp_ne (H : Heap) (b : Nat) (es2 : EndpointState)
    (l : List (String × Nat)) (hne : ∀ kv ∈ l, kv.2 ≠ b) :
    (H.setEp b es2).readEndpoints l = H.readEndpoints l := by
  induction l with
  | nil => rfl
  | cons kv0 rest ih =>
    rcases kv0 with ⟨k0, a0⟩
    have h1 : (H.setEp b es2).readEp a0 = H.readEp a0 := by
      show (H.eps.set b es2)[a0]? = H.eps[a0]?
      exact List.getElem?_set_ne (Ne.symm (hne (k0, a0) (List.mem_cons_self _ _)))
    have h2 := ih (fun kv hkv => hne kv (List.mem_cons_of_mem _ hkv))
    simp only [Heap.readEndpoints, h1, h2]

/-- Writing an endpoints-map object other than the profile's leaves its
deep read unchanged. -/
theorem deepRead_setEpMap_ne (H : Heap) (a b : Nat) (m2 : List (String × Nat))
    (po : HProfile) (hpo : H.readProf a = some po) (hne : b ≠ po.Endpoints) :
    (H.setEpMap b m2).deepRead a = H.deepRead a := by
  have h1 : (H.setEpMap b m2).readProf a = H.readProf a := rfl
  have h2 : (H.setEpMap b m2).readEpMap po.Endpoints = H.readEpMap po.Endpoints := by
    show (H.epMaps.set b m2)[po.Endpoints]? = H.epMaps[po.Endpoints]?
    exact List.getElem?_set_ne hne
  have h3 : ∀ x, (H.setEpMap b m2).readTagMap x = H.readTagMap x := fun _ => rfl
  have h4 : ∀ l, (H.setEpMap b m2).readEndpoints l = H.readEndpoints l :=
    fun l => readEndpoints_congr _ _ l rfl
  unfold Heap.deepRead
  simp only [h1, hpo, h2, h3, h4]

/-- Writing a tags-map object other than the profile's leaves its deep
read unchanged. -/
theorem deepRead_setTagMap_ne (H : Heap) (a b : Nat) (m2 : List (String × String))
    (po : HProfile) (hpo : H.readProf a = some po) (hne : b ≠ po.Tags) :
    (H.setTagMap b m2).deepRead a = H.deepRead a := by
  have h1 : (H.setTagMap b m2).readProf a = H.readProf a := rfl
  have h2 : ∀ x, (H.setTagMap b m2).readEpMap x = H.readEpMap x := fun _ => rfl
  have h3 : (H.setTagMap b m2).readTagMap po.Tags = H.readTagMap po.Tags := by
    show (H.tagMaps.set b m2)[po.Tags]? = H.tagMaps[po.Tags]?
    exact List.getElem?_set_ne hne
  have h4 : ∀ l, (H.setTagMap b m2).readEndpoints l = H.readEndpoints l :=
    fun l => readEndpoints_congr _ _ l rfl
  unfold Heap.deepRead
  simp only [h1, hpo, h2, h3, h4]

/-- Writing an endpoint object outside the profile's endpoint references
leaves its deep read unchanged. -/
theorem deepRead_setEp_ne (H : Heap) (a b : Nat) (es2 : EndpointState)
    (po : HProfile) (em : List (String × Nat))
    (hpo : H.readProf a = some po) (hem : H.readEpMap po.Endpoints = some em)
    (hne : ∀ kv ∈ em, kv.2 ≠ b) :
    (H.setEp b es2).deepRead a = H.deepRead a := by
  have h1 : (H.setEp b es2).readProf a = H.readProf a := rfl
  have h2 : ∀ x, (H.setEp b es2).readEpMap x = H.readEpMap x := fun _ => rfl
  have h3 : ∀ x, (H.setEp b es2).readTagMap x = H.readTagMap x := fun _ => rfl
  have h4 := readEndpoints_setEp_ne H b es2 em hne
  unfold Heap.deepRead
  simp only [h1, hpo, h2, hem, h3, h4]

/-- Stamping CachedAt on the profile object changes exactly the CachedAt
field of its deep value. -/
theorem deepRead_stamp (H : Heap) (p : Nat) (po : HProfile) (pv : ProfileState) (now : Int)
    (hpo : H.readProf p = some po) (hdr : H.deepRead p = some pv) :
    (H.setProfObj p { po with CachedAt := now }).deepRead p =
      some { pv with CachedAt := now } := by
  obtain ⟨em, tm, l, hem, htm, hl, hv⟩ := deepRead_inv H p pv po hpo hdr
  have hbound : p < H.profs.length := (List.getElem?_eq_some_iff.mp hpo).1
  have h1 : (H.setProfObj p { po with CachedAt := now }).readProf p =
      some { po with CachedAt := now } := by
    show (H.profs.set p { po with CachedAt := now })[p]? = some { po with CachedAt := now }
    simp [List.getElem?_set_self, hbound]
  have h2 : ∀ x, (H.setProfObj p { po with CachedAt := now }).readEpMap x =
      H.readEpMap x := fun _ => rfl
  have h3 : ∀ x, (H.setProfObj p { po with CachedAt := now }).readTagMap x =
      H.readTagMap x := fun _ => rfl
  have h4 : ∀ l2, (H.setProfObj p { po with CachedAt := now }).readEndpoints l2 =
      H.readEndpoints l2 := fun l2 => readEndpoints_congr _ _ l2 rfl
  subst hv
  unfold Heap.deepRead
  simp only [h1, h2, h3, h4, hem, htm, hl]

/-- hSetProfile on a readable address: stamp the caller's object in place,
then allocate a fresh clone of the stamped deep value and key it under the
hostname. -/
theorem hSetProfile_eq (H : Heap) (m : HManager) (now : Int) (host : String) (p : Nat)
    (po : HProfile) (sv : ProfileState)
    (hpo : H.readProf p = some po)
    (hdr : (H.setProfObj p { po with CachedAt := now }).deepRead p = some sv) :
    hSetProfile H m now host p =
      (((H.setProfObj p { po with CachedAt := now }).allocProfileVal sv).1,
       { m with profiles := (insertAssoc m.profiles host
           ((H.setProfObj p { po with CachedAt := now }).allocProfileVal sv).2) }) := by
  unfold hSetProfile
  simp only [hpo, hdr]

/-- hGetProfile when the entry is present and unexpired: a fresh clone of
the stored deep value is allocated and its address returned. -/
theorem hGetProfile_found (H : Heap) (m : HManager) (now2 : Int) (host : String)
    (a : Nat) (po : HProfile) (v : ProfileState)
    (hla : lookupA m.profiles host = some a)
    (hpo : H.readProf a = some po)
    (hexp : ¬(po.CachedAt = 0 ∨ m.cacheTTL < now2 - po.CachedAt))
    (hdr : H.deepRead a = some v) :
    hGetProfile H m now2 host = ((H.allocProfileVal v).1, some (H.allocProfileVal v).2) := by
  unfold hGetProfile
  simp only [hla, hpo, if_neg hexp, hdr]

/-- The deep value observed by a Get in the found case is the stored deep
value. -/
theorem hGetValue_of (H : Heap) (m : HManager) (now2 : Int) (host : String)
    (a : Nat) (po : HProfile) (v : ProfileState)
    (hla : lookupA m.profiles host = some a)
    (hpo : H.readProf a = some po)
    (hexp : ¬(po.CachedAt = 0 ∨ m.cacheTTL < now2 - po.CachedAt))
    (hdr : H.deepRead a = some v) :
    hGetValue H m now2 host = some v := by
  unfold hGetValue
  simp only [hGetProfile_found H m now2 host a po v hla hpo hexp hdr]
  exact (allocProfileVal_spec H v).2.2.2.2.2.1

/-- The Get side of the round trip: the returned address is fresh, reads
back to the stored deep value, and mutating any object of the returned
graph preserves the stored entry's deep value and every later Get. -/
theorem get_side_frames (Hs : Heap) (ms : HManager) (now2 : Int) (host : String)
    (a : Nat) (poS : HProfile) (sv : ProfileState)
    (hla : lookupA ms.profiles host = some a)
    (hrpS : Hs.readProf a = some poS)
    (hexpS : ¬(poS.CachedAt = 0 ∨ ms.cacheTTL < now2 - poS.CachedAt))
    (hdrS : Hs.deepRead a = some sv) :
    ∃ Hg q,
      hGetProfile Hs ms now2 host = (Hg, some q) ∧
      Hg.deepRead q = some sv ∧
      Hg.deepRead a = some sv ∧
      q ≠ a ∧
      (∀ po2, (Hg.setProfObj q po2).deepRead a = Hg.deepRead a ∧
        hGetValue (Hg.setProfObj q po2) ms now2 host = some sv) ∧
      (∃ qo, Hg.readProf q = some qo ∧
        (∀ m2, (Hg.setEpMap qo.Endpoints m2).deepRead a = Hg.deepRead a ∧
          hGetValue (Hg.setEpMap qo.Endpoints m2) ms now2 host = some sv) ∧
        (∀ m2, (Hg.setTagMap qo.Tags m2).deepRead a = Hg.deepRead a ∧
          hGetValue (Hg.setTagMap qo.Tags m2) ms now2 host = some sv) ∧
        (∃ qem, Hg.readEpMap qo.Endpoints = some qem ∧
          ∀ kv ∈ qem, ∀ es2, (Hg.setEp kv.2 es2).deepRead a = Hg.deepRead a ∧
            hGetValue (Hg.setEp kv.2 es2) ms now2 host = some sv)) := by
  obtain ⟨emS, tmS, lS, hemS, htmS, hlS, _⟩ := deepRead_inv Hs a sv poS hrpS hdrS
  obtain ⟨specGle, haddrG, hrpG, hremG, _, hdrG, e6G⟩ := allocProfileVal_spec Hs sv
  have hget := hGetProfile_found Hs ms now2 host a poS sv hla hrpS hexpS hdrS
  have hpoGa : (Hs.allocProfileVal sv).1.readProf a = some poS := readProf_mono specGle hrpS
  have hemGa : (Hs.allocProfileVal sv).1.readEpMap poS.Endpoints = some emS :=
    readEpMap_mono specGle hemS
  have hdrGa : (Hs.allocProfileVal sv).1.deepRead a = some sv := deepRead_mono specGle hdrS
  have hqa : (Hs.allocProfileVal sv).2 ≠ a := by
    rw [haddrG]
    exact Nat.ne_of_gt (List.getElem?_eq_some_iff.mp hrpS).1
  have hneEm : Hs.epMaps.length ≠ poS.Endpoints :=
    Nat.ne_of_gt (List.getElem?_eq_some_iff.mp hemS).1
  have hneTm : Hs.tagMaps.length ≠ poS.Tags :=
    Nat.ne_of_gt (List.getElem?_eq_some_iff.mp htmS).1
  refine ⟨_, _, hget, hdrG, hdrGa, hqa, ?_, ?_⟩
  · intro po2
    have hd := deepRead_setProfObj_ne (Hs.allocProfileVal sv).1 a (Hs.allocProfileVal sv).2
      po2 hqa
    refine ⟨hd, ?_⟩
    refine hGetValue_of _ ms now2 host a poS sv hla ?_ hexpS (hd.trans hdrGa)
    exact ((List.getElem?_set_ne hqa :
      ((Hs.allocProfileVal sv).1.profs.set (Hs.allocProfileVal sv).2 po2)[a]? =
        (Hs.allocProfileVal sv).1.profs[a]?).trans hpoGa)
  · refine ⟨_, hrpG, ?_, ?_, ?_⟩
    · intro m2
      have hd := deepRead_setEpMap_ne (Hs.allocProfileVal sv).1 a Hs.epMaps.length m2
        poS hpoGa hneEm
      exact ⟨hd, hGetValue_of _ ms now2 host a poS sv hla hpoGa hexpS (hd.trans hdrGa)⟩
    · intro m2
      have hd := deepRead_setTagMap_ne (Hs.allocProfileVal sv).1 a Hs.tagMaps.length m2
        poS hpoGa hneTm
      exact ⟨hd, hGetValue_of _ ms now2 host a poS sv hla hpoGa hexpS (hd.trans hdrGa)⟩
    · refine ⟨_, hremG, ?_⟩
      intro kv hkv es2
      have hfresh := e6G kv hkv
      have hne2 : ∀ kv2 ∈ emS, kv2.2 ≠ kv.2 := by
        intro kv2 hkv2
        have hb := readEndpoints_some_bounds Hs emS lS hlS kv2 hkv2
        omega
      have hd := deepRead_setEp_ne (Hs.allocProfileVal sv).1 a kv.2 es2 poS emS
        hpoGa hemGa hne2
      exact ⟨hd, hGetValue_of _ ms now2 host a poS sv hla hpoGa hexpS (hd.trans hdrGa)⟩

/-- C8: State Mirror round-trip. After Set(h, p) over the heap model, an
immediate unexpired Get(h) succeeds and returns a value equal in every
field (with the stamped CachedAt) to the stored entry's deep value, but at
a distinct address; mutating any object of the returned graph — the
profile object, its endpoints map, its tags map, or any referenced
endpoint object — leaves the stored entry's deep value unchanged and every
subsequent Get still returns the same value. -/
theorem mirror_round_trip_deep_clone
    (H : Heap) (m : HManager) (now now2 : Int) (host : String) (p : Nat)
    (po : HProfile) (pv : ProfileState)
    (hpo : H.readProf p = some po) (hdr : H.deepRead p = some pv)
    (hexp : ¬(now = 0 ∨ m.cacheTTL < now2 - now)) :
    ∃ Hs ms a Hg q,
      hSetProfile H m now host p = (Hs, ms) ∧
      lookupA ms.profiles host = some a ∧
      hGetProfile Hs ms now2 host = (Hg, some q) ∧
      Hg.deepRead q = some { pv with CachedAt := now } ∧
      Hg.deepRead a = some { pv with CachedAt := now } ∧
      q ≠ a ∧
      (∀ po2, (Hg.setProfObj q po2).deepRead a = Hg.deepRead a ∧
        hGetValue (Hg.setProfObj q po2) ms now2 host = some { pv with CachedAt := now }) ∧
      (∃ qo, Hg.readProf q = some qo ∧
        (∀ m2, (Hg.setEpMap qo.Endpoints m2).deepRead a = Hg.deepRead a ∧
          hGetValue (Hg.setEpMap qo.Endpoints m2) ms now2 host =
            some { pv with CachedAt := now }) ∧
        (∀ m2, (Hg.setTagMap qo.Tags m2).deepRead a = Hg.deepRead a ∧
          hGetValue (Hg.setTagMap qo.Tags m2) ms now2 host =
            some { pv with CachedAt := now }) ∧
        (∃ qem, Hg.readEpMap qo.Endpoints = some qem ∧
          ∀ kv ∈ qem, ∀ es2, (Hg.setEp kv.2 es2).deepRead a = Hg.deepRead a ∧
            hGetValue (Hg.setEp kv.2 es2) ms now2 host =
              some { pv with CachedAt := now })) := by
  have hdr1 := deepRead_stamp H p po pv now hpo hdr
  have hset := hSetProfile_eq H m now host p po { pv with CachedAt := now } hpo hdr1
  obtain ⟨_, _, hrpS, _, _, hdrS, _⟩ :=
    allocProfileVal_spec (H.setProfObj p { po with CachedAt := now })
      { pv with CachedAt := now }
  obtain ⟨Hg, q, hget, h1, h2, h3, h4, h5⟩ := get_side_frames
    ((H.setProfObj p { po with CachedAt := now }).allocProfileVal
      { pv with CachedAt := now }).1
    { m with profiles := (insertAssoc m.profiles host
        ((H.setProfObj p { po with CachedAt := now }).allocProfileVal
          { pv with CachedAt := now }).2) }
    now2 host
    ((H.setProfObj p { po with CachedAt := now }).allocProfileVal
      { pv with CachedAt := now }).2
    _ _ (lookupA_insertAssoc_self m.profiles host _) hrpS hexp hdrS
  exact ⟨_, _, _, Hg, q, hset, lookupA_insertAssoc_self m.profiles host _,
    hget, h1, h2, h3, h4, h5⟩

/-- Witness for C8 at a concrete one-profile heap. -/
theorem mirror_round_trip_deep_clone_witness :
    ∃ Hs ms a Hg q,
      hSetProfile w8Heap ⟨[], 300⟩ 5 "app.example.com" 0 = (Hs, ms) ∧
      lookupA ms.profiles "app.example.com" = some a ∧
      hGetProfile Hs ms 7 "app.example.com" = (Hg, some q) ∧
      Hg.deepRead q = some { w8Pv with CachedAt := 5 } ∧
      Hg.deepRead a = some { w8Pv with CachedAt := 5 } ∧
      q ≠ a ∧
      (∀ po2, (Hg.setProfObj q po2).deepRead a = Hg.deepRead a ∧
        hGetValue (Hg.setProfObj q po2) ms 7 "app.example.com" =
          some { w8Pv with CachedAt := 5 }) ∧
      (∃ qo, Hg.readProf q = some qo ∧
        (∀ m2, (Hg.setEpMap qo.Endpoints m2).deepRead a = Hg.deepRead a ∧
          hGetValue (Hg.setEpMap qo.Endpoints m2) ms 7 "app.example.com" =
            some { w8Pv with CachedAt := 5 }) ∧
        (∀ m2, (Hg.setTagMap qo.Tags m2).deepRead a = Hg.deepRead a ∧
          hGetValue (Hg.setTagMap qo.Tags m2) ms 7 "app.example.com" =
            some { w8Pv with CachedAt := 5 }) ∧
        (∃ qem, Hg.readEpMap qo.Endpoints = some qem ∧
          ∀ kv ∈ qem, ∀ es2, (Hg.setEp kv.2 es2).deepRead a = Hg.deepRead a ∧
            hGetValue (Hg.setEp kv.2 es2) ms 7 "app.example.com" =
              some { w8Pv with CachedAt := 5 })) :=
  mirror_round_trip_deep_clone w8Heap ⟨[], 300⟩ 5 7 "app.example.com" 0 w8Po w8Pv
    (by decide) (by decide) (by decide)

end TMSpec
